import Mathlib

set_option autoImplicit false

/-!
Verification of the SQL execution layer of the rdsai-cli repository
(`src/database/service.py`, `src/database/duckdb_client.py`,
`src/database/duckdb_loader.py`).

Strings are modelled as `List Char`.  Python string operations are modelled
for the ASCII fragment (Python's `str.upper`, `str.isalnum`, `str.strip`
agree with the model on ASCII data; theorems about concrete inputs only use
ASCII data).  Wall-clock execution times (floats) are omitted from the
result records: no property below depends on them.
-/

/-- Convert a Lean string literal to the `List Char` representation used
throughout this development. -/
def dat (s : String) : List Char := s.data

deriving instance DecidableEq for Except

namespace Py

/-- ASCII whitespace, as recognised by Python's `str.strip` / `str.split`
on ASCII text. -/
def isWs (c : Char) : Bool :=
  c = ' ' || c = '\t' || c = '\n' || c = '\r' || c = '\x0b' || c = '\x0c'

/-- Python `str.lstrip()` (ASCII). -/
def lstrip (l : List Char) : List Char := l.dropWhile isWs

/-- Python `str.rstrip()` (ASCII). -/
def rstrip (l : List Char) : List Char := (l.reverse.dropWhile isWs).reverse

/-- Python `str.strip()` (ASCII). -/
def strip (l : List Char) : List Char := rstrip (lstrip l)

/-- Python `str.upper()` (ASCII): `Char.toUpper` maps exactly `'a'..'z'`. -/
def upper (l : List Char) : List Char := l.map Char.toUpper

/-- Python `str.lower()` (ASCII). -/
def lower (l : List Char) : List Char := l.map Char.toLower

/-- Python `str.isalnum()` for a single character, ASCII fragment. -/
def isAlnum (c : Char) : Bool := c.isAlphanum

/-- Python `str.split("\n")`: split on every newline, keeping empty pieces. -/
def splitNl : List Char → List (List Char)
  | [] => [[]]
  | c :: rest =>
    let r := splitNl rest
    if c = '\n' then [] :: r
    else
      match r with
      | h :: t => (c :: h) :: t
      | [] => [[c]]

/-- Auxiliary state machine for Python's whitespace `str.split()`. -/
def splitWsAux : List Char → List Char → List (List Char)
  | [], acc => if acc = [] then [] else [acc.reverse]
  | c :: rest, acc =>
    if isWs c then
      if acc = [] then splitWsAux rest []
      else acc.reverse :: splitWsAux rest []
    else splitWsAux rest (c :: acc)

/-- Python `str.split()` with no argument: split on runs of whitespace,
dropping empty tokens. -/
def splitWs (l : List Char) : List (List Char) := splitWsAux l []

/-- Python `str.split(maxsplit=1)` with no separator: first token, then the
remainder with the separating whitespace removed (trailing whitespace of the
remainder is kept, as in Python). -/
def splitWsMax1 (l : List Char) : List (List Char) :=
  let l1 := l.dropWhile isWs
  if l1 = [] then []
  else
    let tok := l1.takeWhile (fun c => !(isWs c))
    let rest := (l1.dropWhile (fun c => !(isWs c))).dropWhile isWs
    if rest = [] then [tok] else [tok, rest]

/-- Python `str.rstrip(";")`: drop every trailing semicolon. -/
def rstripSemi (l : List Char) : List Char :=
  (l.reverse.dropWhile (fun c => c = ';')).reverse

/-- Python `"\n".join(lines)`. -/
def joinNl : List (List Char) → List Char
  | [] => []
  | [l] => l
  | l :: rest => l ++ '\n' :: joinNl rest

/-- Membership test on characters, mirroring Python's `c in s`. -/
def hasChar (c : Char) (l : List Char) : Bool := l.any (fun x => x = c)

/-- Python `str.startswith`. -/
def startsWith (pre l : List Char) : Bool := pre.isPrefixOf l

/-- Python `str.endswith`. -/
def endsWith (suf l : List Char) : Bool := suf.isSuffixOf l

/-- Decimal rendering of a natural number, as Python's `str(i)`. -/
def natStr (n : Nat) : List Char := (Nat.repr n).data

end Py

-- ========== Data model (types referenced by `src/database/service.py`) ==========

/-- Python values appearing in result rows and load tuples (the fragment the
claims need: strings, integers, `None`). -/
inductive PyVal
  | str (s : List Char)
  | int (n : Int)
  | none
deriving DecidableEq, Repr

/-- Query-type tags, with exactly the constructors referenced by
`service.py` (`QueryType.SELECT`, …, `QueryType.OTHER`). -/
inductive QueryType
  | SELECT | INSERT | UPDATE | DELETE | SHOW | SET | CREATE | DROP | ALTER
  | DESCRIBE | DESC | EXPLAIN | USE | BEGIN | COMMIT | ROLLBACK | GRANT
  | REVOKE | TRUNCATE | REPLACE | SOURCE | OTHER
deriving DecidableEq, Repr

/-- Status tag of a `LastQueryContext` (`QueryStatus.SUCCESS` /
`QueryStatus.ERROR` as referenced by `service.py`). -/
inductive QueryStatus
  | SUCCESS
  | ERROR
deriving DecidableEq, Repr

/-- Connection-context status (`ConnectionStatus.CONNECTED` / `FAILED` as
referenced by `service.py`). -/
inductive ConnectionStatus
  | CONNECTED
  | FAILED
deriving DecidableEq, Repr

/-- Vector-capability status of the service
(`_vector_capability_status : Literal["UNKNOWN", "ENABLED", "DISABLED"]`). -/
inductive CapabilityStatus
  | UNKNOWN
  | ENABLED
  | DISABLED
deriving DecidableEq, Repr

/-- Result record of one execution (`QueryResult` as constructed by
`service.py`; the wall-clock `execution_time` field is omitted, see the
header comment). -/
structure QueryResult where
  query_type : QueryType
  success : Bool
  rows : List (List PyVal)
  columns : Option (List (List Char)) := Option.none
  affected_rows : Option Int := Option.none
  error : Option (List Char) := Option.none
deriving DecidableEq, Repr

/-- Bounded snapshot of the most recent query (`LastQueryContext` as
constructed by `DatabaseService.set_last_query_context`; the wall-clock
`execution_time` field is omitted). -/
structure LastQueryContext where
  sql : List Char
  status : QueryStatus
  columns : Option (List (List Char))
  rows : Option (List (List PyVal))
  row_count : Nat
  affected_rows : Option Int
  error_message : Option (List Char)
deriving DecidableEq, Repr

-- ========== Query classifier (`DatabaseService._classify_query`) ==========

namespace DatabaseService

/-- The ordered prefix table `DatabaseService._QUERY_TYPE_PREFIXES`. -/
def queryTypePrefixTable : List (List Char × QueryType) :=
  [ (dat "WITH", QueryType.SELECT),
    (dat "SELECT", QueryType.SELECT),
    (dat "INSERT", QueryType.INSERT),
    (dat "UPDATE", QueryType.UPDATE),
    (dat "DELETE", QueryType.DELETE),
    (dat "SHOW", QueryType.SHOW),
    (dat "SET", QueryType.SET),
    (dat "CREATE", QueryType.CREATE),
    (dat "DROP", QueryType.DROP),
    (dat "ALTER", QueryType.ALTER),
    (dat "DESCRIBE", QueryType.DESCRIBE),
    (dat "DESC", QueryType.DESC),
    (dat "EXPLAIN", QueryType.EXPLAIN),
    (dat "USE", QueryType.USE),
    (dat "BEGIN", QueryType.BEGIN),
    (dat "START TRANSACTION", QueryType.BEGIN),
    (dat "COMMIT", QueryType.COMMIT),
    (dat "ROLLBACK", QueryType.ROLLBACK),
    (dat "GRANT", QueryType.GRANT),
    (dat "REVOKE", QueryType.REVOKE),
    (dat "TRUNCATE", QueryType.TRUNCATE),
    (dat "REPLACE", QueryType.REPLACE),
    (dat "SOURCE", QueryType.SOURCE) ]

/-- The scanning loop of `_classify_query`: try each `(keyword, type)` entry
in order; on a keyword that is a prefix, return its type when the keyword is
followed by end-of-string or a non-alphanumeric character, otherwise keep
scanning. -/
def classifyScan (u : List Char) : List (List Char × QueryType) → QueryType
  | [] => QueryType.OTHER
  | (kw, t) :: rest =>
    if Py.startsWith kw u then
      match u.drop kw.length with
      | [] => t
      | c :: _ => if Py.isAlnum c then classifyScan u rest else t
    else classifyScan u rest

/-- `DatabaseService._classify_query`. -/
def classify_query (sql : List Char) : QueryType :=
  if sql = [] || Py.strip sql = [] then QueryType.OTHER
  else classifyScan (Py.upper (Py.strip sql)) queryTypePrefixTable

/-- Spec-side formulation of the classifier contract (spec section 4.2):
the keyword must be a prefix of the stripped upper-cased statement followed
by end-of-string or a non-alphanumeric character. -/
def kwBoundaryMatch (u kw : List Char) : Bool :=
  Py.startsWith kw u &&
    (match u.drop kw.length with
     | [] => true
     | c :: _ => !(Py.isAlnum c))

/-- Spec-side classifier: the type of the first entry of the ordered table
whose keyword matches with a word boundary, `OTHER` when none does or when
the input is empty/whitespace-only. -/
def classifySpec (sql : List Char) : QueryType :=
  if sql = [] || Py.strip sql = [] then QueryType.OTHER
  else
    match queryTypePrefixTable.find?
        (fun e => kwBoundaryMatch (Py.upper (Py.strip sql)) e.1) with
    | some e => e.2
    | Option.none => QueryType.OTHER

-- ========== `DatabaseService.is_sql_statement` ==========

/-- `DatabaseService._OPTIONAL_MODIFIERS`. -/
def optionalModifiers : List (List Char) :=
  [ dat "FULL", dat "EXTENDED", dat "GLOBAL", dat "SESSION", dat "MASTER",
    dat "SLAVE", dat "REPLICA" ]

/-- `DatabaseService._VALID_SHOW_TARGETS`. -/
def validShowTargets : List (List Char) :=
  [ dat "TABLES", dat "SCHEMAS", dat "CREATE", dat "INDEX", dat "DATABASES",
    dat "PROCESSLIST", dat "VARIABLES", dat "STATUS", dat "ENGINE",
    dat "SLAVE", dat "REPLICA", dat "GRANTS", dat "WARNINGS", dat "ERRORS",
    dat "TABLE", dat "COLUMNS", dat "FIELDS", dat "KEYS", dat "TRIGGERS",
    dat "PROCEDURE", dat "FUNCTION" ]

/-- `DatabaseService.is_sql_statement`: classify, reject `OTHER`, and for
`SHOW` require that the first token after the keyword that is not an
optional modifier is (modulo trailing semicolons) a valid SHOW target. -/
def is_sql_statement (command : List Char) : Bool :=
  if command = [] then false
  else
    match classify_query command with
    | QueryType.OTHER => false
    | QueryType.SHOW =>
      let commandUpper := Py.upper (Py.strip command)
      let rest := Py.strip (commandUpper.drop 4)
      if rest = [] then false
      else
        match (Py.splitWs rest).find? (fun t => !(optionalModifiers.contains t)) with
        | some t => validShowTargets.contains (Py.rstripSemi t)
        | Option.none => false
    | _ => true

/-- Spec-side formulation of the SHOW-target requirement: skip the optional
modifier tokens, then the next token (modulo trailing semicolons) must be in
the allow-list; fail when no token remains. -/
def showTargetOkSpec (rest : List Char) : Bool :=
  match (Py.splitWs rest).dropWhile (fun t => optionalModifiers.contains t) with
  | [] => false
  | t :: _ => validShowTargets.contains (Py.rstripSemi t)

end DatabaseService

-- ========== Script splitter (`DatabaseService._split_sql_statements`) ==========

namespace DatabaseService

/-- Python `x[:-n]` for `n = suffix.length`: drop that many characters from
the end (empty result when the suffix is longer than the string). -/
def dropSuffixLen (l : List Char) (n : Nat) : List Char := l.take (l.length - n)

/-- Accumulator of the line-by-line splitting loop: statements emitted so
far, lines of the pending statement, and the active delimiter. -/
structure SplitState where
  statements : List (List Char)
  current : List (List Char)
  delim : List Char
deriving DecidableEq, Repr

/-- One iteration of the `for line in lines` loop of
`_split_sql_statements`: skip blanks (appending them to a pending
statement) and comments, handle a `DELIMITER` directive (flush the pending
statement, dropping it when it itself starts with `DELIMITER`, and install
the new delimiter when an argument is present), otherwise append the line
and close the statement when the stripped line ends with the active
delimiter, stripping the delimiter suffix from the recorded statement. -/
def splitStep (st : SplitState) (line : List Char) : SplitState :=
  let stripped := Py.strip line
  if stripped = [] then
    if st.current = [] then st else { st with current := st.current ++ [line] }
  else if Py.startsWith (dat "--") stripped || Py.startsWith (dat "#") stripped then
    st
  else if Py.startsWith (dat "DELIMITER") (Py.upper stripped) then
    let st1 :=
      if st.current = [] then st
      else
        let stmt := Py.strip (Py.joinNl st.current)
        if stmt ≠ [] ∧ ¬ Py.startsWith (dat "DELIMITER") (Py.upper stmt) = true then
          { st with statements := st.statements ++ [stmt], current := [] }
        else { st with current := [] }
    match Py.splitWsMax1 stripped with
    | [_, p1] => { st1 with delim := Py.strip p1 }
    | _ => st1
  else
    let cur := st.current ++ [line]
    if Py.endsWith st.delim stripped then
      let stmt0 := Py.joinNl cur
      let stmt :=
        if Py.endsWith st.delim (Py.rstrip stmt0) then
          Py.strip (dropSuffixLen (Py.rstrip stmt0) st.delim.length)
        else stmt0
      if stmt ≠ [] then
        { st with statements := st.statements ++ [stmt], current := [] }
      else { st with current := [] }
    else { st with current := cur }

/-- `DatabaseService._split_sql_statements`: split script content into
statements, walking the lines with `splitStep` and emitting any trailing
undelimited content at end-of-file. -/
def split_sql_statements (content : List Char) (delimiter : List Char) : List (List Char) :=
  let st := (Py.splitNl content).foldl splitStep ⟨[], [], delimiter⟩
  if st.current ≠ [] then
    let stmt := Py.strip (Py.joinNl st.current)
    if stmt ≠ [] then st.statements ++ [stmt] else st.statements
  else st.statements

-- ========== Vertical-format directive ==========

/-- `DatabaseService.has_vertical_format_directive`: the regex
`\s*\\[Gg]\s*;?\s*$` has a match, i.e. the statement ends with a backslash,
`G` or `g`, optional whitespace, an optional semicolon and optional
whitespace. -/
def has_vertical_format_directive (sql : List Char) : Bool :=
  let r1 := sql.reverse.dropWhile Py.isWs
  let r2 := match r1 with
            | ';' :: rest => rest
            | _ => r1
  let r3 := r2.dropWhile Py.isWs
  match r3 with
  | g :: '\\' :: _ => g = 'G' || g = 'g'
  | _ => false

/-- `DatabaseService._clean_display_directives`: remove a trailing `\G`
directive, replacing it by `";"` when the removed text contained a
semicolon (the regex substitution in the source). -/
def clean_display_directives (sql : List Char) : List Char :=
  let r1 := sql.reverse.dropWhile Py.isWs
  let hadSemi := match r1 with
                 | ';' :: _ => true
                 | _ => false
  let r2 := match r1 with
            | ';' :: rest => rest
            | _ => r1
  let r3 := r2.dropWhile Py.isWs
  match r3 with
  | g :: '\\' :: rest =>
    if g = 'G' || g = 'g' then
      ((rest.dropWhile Py.isWs).reverse) ++ (if hadSemi then [';'] else [])
    else sql
  | _ => sql

-- ========== Script engine (`DatabaseService._execute_script`) ==========

/-- Outcome of one `self.execute_query(stmt)` call inside the script loop:
either a returned `QueryResult`, or an exception escaping `execute_query`
(as happens, e.g., when no client is connected and `_get_client_or_raise`
raises `DatabaseError`). -/
inductive ExecOutcome
  | result (r : QueryResult)
  | raises (msg : List Char)
deriving DecidableEq, Repr

/-- Whether the outcome is a normally returned result. -/
def ExecOutcome.isResult : ExecOutcome → Bool
  | .result _ => true
  | .raises _ => false

/-- Whether the statement counts as succeeded in the loop's bookkeeping. -/
def ExecOutcome.succeeded : ExecOutcome → Bool
  | .result r => r.success
  | .raises _ => false

/-- Python rendering of the failure text recorded for a statement:
`result.error` (with `str(None) = "None"`) for a returned failure, `str(e)`
for an exception. -/
def ExecOutcome.failText : ExecOutcome → List Char
  | .result r =>
    match r.error with
    | some e => e
    | Option.none => dat "None"
  | .raises m => m

/-- Per-statement failure line `f"Statement {i}/{n}: {msg}"`. -/
def scriptErrorEntry (i n : Nat) (msg : List Char) : List Char :=
  dat "Statement " ++ Py.natStr i ++ dat "/" ++ Py.natStr n ++ dat ": " ++ msg

/-- Accumulator of the script execution loop; `calls` records the
`display_callback(result, stmt, use_vertical)` invocations (statement text
and vertical flag) in order. -/
structure ScriptAcc where
  successCount : Nat
  errorCount : Nat
  totalAffected : Int
  errors : List (List Char)
  calls : List (List Char × Bool)
deriving DecidableEq, Repr

/-- The `for i, stmt in enumerate(statements, 1)` loop of
`_execute_script`: strip and skip empty statements, execute, forward the
result to the display callback when one is set, and record
success/failure; an exception from `execute_query` is recorded as that
statement's failure (without a callback invocation) and the loop
continues. -/
def scriptLoop (execQ : Nat → List Char → ExecOutcome) (useCallback : Bool) (n : Nat) :
    List (Nat × List Char) → ScriptAcc → ScriptAcc
  | [], acc => acc
  | (i, stmt0) :: rest, acc =>
    let stmt := Py.strip stmt0
    if stmt = [] then scriptLoop execQ useCallback n rest acc
    else
      match execQ i stmt with
      | .result r =>
        let acc1 : ScriptAcc :=
          { acc with
            calls :=
              if useCallback then
                acc.calls ++ [(stmt, has_vertical_format_directive stmt)]
              else acc.calls }
        if r.success then
          scriptLoop execQ useCallback n rest
            { acc1 with
              successCount := acc1.successCount + 1,
              totalAffected := acc1.totalAffected +
                (match r.affected_rows with
                 | some a => if a ≥ 0 then a else 0
                 | Option.none => 0) }
        else
          scriptLoop execQ useCallback n rest
            { acc1 with
              errorCount := acc1.errorCount + 1,
              errors := acc1.errors ++
                [scriptErrorEntry i n (ExecOutcome.failText (.result r))] }
      | .raises m =>
        scriptLoop execQ useCallback n rest
          { acc with
            errorCount := acc.errorCount + 1,
            errors := acc.errors ++ [scriptErrorEntry i n m] }

/-- Aggregated error message of `_execute_script`: the individual failure
lines joined by newlines, capped to the first 10 with a trailing
`... and N more error(s)` count. -/
def scriptErrorMessage (errs : List (List Char)) : Option (List Char) :=
  if errs = [] then Option.none
  else if errs.length > 10 then
    some (Py.joinNl (errs.take 10) ++ dat "\n... and " ++
      Py.natStr (errs.length - 10) ++ dat " more error(s)")
  else some (Py.joinNl errs)

/-- `DatabaseService._execute_script` (with `self.execute_query` abstracted
as the oracle `execQ`, indexed by the 1-based statement position, and the
optional display callback abstracted as the flag `useCallback`): returns
the summary `QueryResult` and the ordered list of display-callback
invocations. -/
def execute_script (execQ : Nat → List Char → ExecOutcome) (useCallback : Bool)
    (content : List Char) : QueryResult × List (List Char × Bool) :=
  let statements := split_sql_statements content (dat ";")
  if statements = [] then
    ({ query_type := QueryType.SOURCE, success := true, rows := [],
       error := some (dat "No statements found in script") }, [])
  else
    let n := statements.length
    let acc := scriptLoop execQ useCallback n (List.enumFrom 1 statements)
      ⟨0, 0, 0, [], []⟩
    ({ query_type := QueryType.SOURCE,
       success := acc.errorCount = 0,
       rows := [],
       affected_rows := if acc.totalAffected > 0 then some acc.totalAffected else Option.none,
       error := scriptErrorMessage acc.errors }, acc.calls)

end DatabaseService

namespace DatabaseService

/-- Outcome of the statement at 1-based position `p.1` with raw text `p.2`
(the loop strips the text before executing it). -/
def stmtOutcome (execQ : Nat → List Char → ExecOutcome) (p : Nat × List Char) :
    ExecOutcome :=
  execQ p.1 (Py.strip p.2)

/-- Whether the loop records the statement as failed (failed result or
exception). -/
def stmtFailed (execQ : Nat → List Char → ExecOutcome) (p : Nat × List Char) : Bool :=
  !(stmtOutcome execQ p).succeeded

/-- Whether the statement is non-empty after stripping (empty statements
are skipped by the loop). -/
def stmtNonEmpty (p : Nat × List Char) : Bool := !(Py.strip p.2).isEmpty

/-- The failure lines the loop accumulates, computed directly from the
enumerated statement list. -/
def expectedErrors (execQ : Nat → List Char → ExecOutcome) (n : Nat)
    (enum : List (Nat × List Char)) : List (List Char) :=
  ((enum.filter stmtNonEmpty).filter (stmtFailed execQ)).map
    (fun p => scriptErrorEntry p.1 n (stmtOutcome execQ p).failText)

/-- The display-callback invocations the loop performs (one per non-empty
statement whose execution returns normally), computed directly from the
enumerated statement list. -/
def expectedCalls (execQ : Nat → List Char → ExecOutcome)
    (enum : List (Nat × List Char)) : List (List Char × Bool) :=
  ((enum.filter stmtNonEmpty).filter (fun p => (stmtOutcome execQ p).isResult)).map
    (fun p => (Py.strip p.2, has_vertical_format_directive (Py.strip p.2)))

/-- Statement executor that always raises, exactly as `execute_query` does
on every non-SOURCE statement when no client is connected
(`_get_client_or_raise` raises `DatabaseError`). -/
def raisingExec : Nat → List Char → ExecOutcome :=
  fun _ _ => ExecOutcome.raises (dat "No active database connection")

/-- Executor where the second statement returns a failed result and every
other statement succeeds (the three-statement fixture of the spec). -/
def mixedExec : Nat → List Char → ExecOutcome :=
  fun i _ =>
    if i = 2 then
      ExecOutcome.result
        { query_type := QueryType.INSERT, success := false, rows := [],
          error := some (dat "boom") }
    else
      ExecOutcome.result
        { query_type := QueryType.INSERT, success := true, rows := [] }

end DatabaseService

-- ========== Vector capability probe (`_detect_vector_capability`) ==========

namespace DatabaseService

/-- Combined outcome of the probe `execute("SHOW VARIABLES LIKE
'vidx_disabled'")` followed by `fetchall()`: either the fetched rows (each
row a list of cells, a cell being a string or `None`), or an exception
raised by the probe. -/
inductive ProbeOutcome
  | rows (rs : List (List (Option (List Char))))
  | raises (msg : List Char)
deriving DecidableEq, Repr

/-- `DatabaseService._detect_vector_capability`: the resulting pair
`(_vector_capability_status, _vector_capability_error)`.  No rows means
DISABLED; a first-row second-column value that upper-cases to `OFF` means
ENABLED; any other value means DISABLED; an exception anywhere in the
`try` block (the probe itself, or indexing a too-short row) means
UNKNOWN. -/
def detect_vector_capability (connected : Bool) (probe : ProbeOutcome) :
    CapabilityStatus × Option (List Char) :=
  if !connected then (CapabilityStatus.UNKNOWN, some (dat "No active connection"))
  else
    match probe with
    | ProbeOutcome.raises m => (CapabilityStatus.UNKNOWN, some m)
    | ProbeOutcome.rows [] => (CapabilityStatus.DISABLED, Option.none)
    | ProbeOutcome.rows (row :: _) =>
      match row.get? 1 with
      | Option.none =>
        (CapabilityStatus.UNKNOWN, some (dat "tuple index out of range"))
      | some cell =>
        let value : List Char :=
          match cell with
          | Option.none => []
          | some s => if s = [] then [] else Py.upper s
        if value = dat "OFF" then (CapabilityStatus.ENABLED, Option.none)
        else (CapabilityStatus.DISABLED, Option.none)

-- ========== Service state, callbacks, last-query context ==========

/-- Backend behaviour for a single `execute_query` call: whether `execute`
raises, and what the fetch/metadata calls then return. -/
structure ClientStep where
  execError : Option (List Char)
  rows : List (List PyVal)
  columns : Option (List (List Char))
  rowCount : Int
deriving DecidableEq, Repr

/-- Client whose statement execution succeeds and returns no rows. -/
def okClient : ClientStep :=
  { execError := Option.none, rows := [], columns := Option.none, rowCount := 0 }

/-- Modelled from the spec: `RESULT_SET_QUERY_TYPES` lives in the missing
`database/types.py`; per the spec the row-set-returning tags are the
SELECT class (a `WITH` prefix classifies identically to `SELECT`), `SHOW`,
`DESCRIBE`/`DESC` and `EXPLAIN`. -/
def resultSetQueryTypes : List QueryType :=
  [QueryType.SELECT, QueryType.SHOW, QueryType.DESCRIBE, QueryType.DESC,
   QueryType.EXPLAIN]

/-- The `DatabaseService` fields the studied operations touch: the
schema-change callback registry (callbacks named by numbers), the
last-query context and the current database. -/
structure ServiceState where
  callbacks : List Nat
  last_query_context : Option LastQueryContext
  current_database : Option (List Char)
deriving DecidableEq, Repr

/-- Freshly constructed service (`DatabaseService.__init__`). -/
def initialServiceState : ServiceState :=
  { callbacks := [], last_query_context := Option.none,
    current_database := Option.none }

/-- `DatabaseService.register_schema_change_callback`: the method body in
the source consists solely of its docstring — no statement appends the
callback to `_schema_change_callbacks`, so the state is unchanged. -/
def register_schema_change_callback (st : ServiceState) (_cb : Nat) : ServiceState :=
  st

/-- `DatabaseService.unregister_schema_change_callback`: remove the first
occurrence of the callback when present. -/
def unregister_schema_change_callback (st : ServiceState) (cb : Nat) : ServiceState :=
  { st with callbacks := st.callbacks.erase cb }

/-- `DatabaseService._notify_schema_change`: invoke every registered
callback in registration order (a raising callback is caught and logged);
the returned list records the invocations. -/
def notify_schema_change (st : ServiceState) : List Nat := st.callbacks

/-- The complete snapshot record `set_last_query_context` builds: rows
capped at `max_rows`, `row_count` recording the uncapped count, `None` and
`[]` row inputs both stored as no rows. -/
def mkLastQueryContext (sql : List Char) (status : QueryStatus)
    (columns : Option (List (List Char))) (rows : Option (List (List PyVal)))
    (affected_rows : Option Int) (error_message : Option (List Char))
    (max_rows : Nat) : LastQueryContext :=
  { sql := sql, status := status, columns := columns,
    rows :=
      (match rows with
       | some (r :: rs) =>
         some (if (r :: rs).length > max_rows then (r :: rs).take max_rows else r :: rs)
       | _ => Option.none),
    row_count :=
      (match rows with
       | some (r :: rs) => (r :: rs).length
       | _ => 0),
    affected_rows := affected_rows,
    error_message := error_message }

/-- `DatabaseService.set_last_query_context`: one assignment installing the
complete snapshot. -/
def set_last_query_context (st : ServiceState) (sql : List Char) (status : QueryStatus)
    (columns : Option (List (List Char))) (rows : Option (List (List PyVal)))
    (affected_rows : Option Int) (error_message : Option (List Char))
    (max_rows : Nat) : ServiceState :=
  { st with
    last_query_context :=
      some (mkLastQueryContext sql status columns rows affected_rows error_message max_rows) }

/-- `DatabaseService.clear_last_query_context`. -/
def clear_last_query_context (st : ServiceState) : ServiceState :=
  { st with last_query_context := Option.none }

/-- `DatabaseService.consume_last_query_context`: return and clear. -/
def consume_last_query_context (st : ServiceState) :
    Option LastQueryContext × ServiceState :=
  (st.last_query_context, { st with last_query_context := Option.none })

/-- Matcher for one position of the case-insensitive regex
`USE\s+(?:backtick)?([^backtick;\s]+)` of `_extract_database_from_use`
(the backtick is written `Char.ofNat 96`). -/
def matchUseAt (l : List Char) : Option (List Char) :=
  match l with
  | u :: s :: e :: rest =>
    if Char.toUpper u = 'U' ∧ Char.toUpper s = 'S' ∧ Char.toUpper e = 'E' then
      match rest with
      | w :: _ =>
        if Py.isWs w then
          let afterWs := rest.dropWhile Py.isWs
          let afterTick :=
            match afterWs with
            | t :: rest2 => if t = Char.ofNat 96 then rest2 else afterWs
            | [] => afterWs
          let capture := afterTick.takeWhile
            (fun c => !(Py.isWs c || c = ';' || c = Char.ofNat 96))
          if capture = [] then Option.none else some capture
        else Option.none
      | [] => Option.none
    else Option.none
  | _ => Option.none

/-- Leftmost-match scan of `re.search` for `_extract_database_from_use`. -/
def useScan : List Char → Option (List Char)
  | [] => Option.none
  | c :: rest =>
    match matchUseAt (c :: rest) with
    | some db => some db
    | Option.none => useScan rest

/-- `DatabaseService._extract_database_from_use`. -/
def extract_database_from_use (sql : List Char) : Option (List Char) :=
  if sql = [] || Py.strip sql = [] then Option.none
  else useScan (Py.strip sql)

/-- `DatabaseService.execute_query` (non-SOURCE path; the SOURCE branch
delegates to the script engine modelled by `execute_script` and is
abstracted by the `sourceResult` parameter, since it reads the file
system): the returned `QueryResult`, the updated service state, and the
ordered schema-change-callback invocations; `Except.error` models the
`DatabaseError` raised by `_get_client_or_raise` when no client is
connected.  `handle_database_error` (in the absent `database/errors.py`)
wraps the backend failure; the wrapped text is modelled as the raw backend
message. -/
def execute_query (sourceResult : List Char → QueryResult) (client : Option ClientStep)
    (st : ServiceState) (sql0 : List Char) :
    Except (List Char) (QueryResult × ServiceState × List Nat) :=
  let sql := clean_display_directives sql0
  let qt := classify_query sql
  if qt = QueryType.SOURCE then Except.ok (sourceResult sql, st, [])
  else
    match client with
    | Option.none => Except.error (dat "No active database connection")
    | some c =>
      match c.execError with
      | some m =>
        Except.ok ({ query_type := qt, success := false, rows := [],
                     error := some m }, st, [])
      | Option.none =>
        let rows := if qt ∈ resultSetQueryTypes then c.rows else []
        let columns := if qt ∈ resultSetQueryTypes then c.columns else Option.none
        let affected : Option Int :=
          if qt ∈ resultSetQueryTypes then Option.none
          else if c.rowCount ≥ 0 then some c.rowCount else Option.none
        let stAndNotifs :=
          if qt = QueryType.USE then
            ((match extract_database_from_use sql with
              | some d => { st with current_database := some d }
              | Option.none => st), notify_schema_change st)
          else (st, ([] : List Nat))
        let notifs2 :=
          if qt = QueryType.CREATE ∨ qt = QueryType.DROP ∨ qt = QueryType.ALTER then
            notify_schema_change stAndNotifs.1
          else []
        Except.ok ({ query_type := qt, success := true, rows := rows,
                     columns := columns, affected_rows := affected },
          stAndNotifs.1, stAndNotifs.2 ++ notifs2)

/-- Source-command fallback used where the SOURCE branch is irrelevant. -/
def noSourceResult : List Char → QueryResult :=
  fun _ => { query_type := QueryType.SOURCE, success := false, rows := [] }

/-- Service operations that can interact with the last-query context. -/
inductive ServiceOp
  | setCtx (sql : List Char) (status : QueryStatus)
      (columns : Option (List (List Char))) (rows : Option (List (List PyVal)))
      (affected_rows : Option Int) (error_message : Option (List Char))
      (max_rows : Nat)
  | clearCtx
  | consumeCtx
  | execQuery (client : Option ClientStep) (sql : List Char)
  | disconnect
deriving DecidableEq, Repr

/-- State transition of one operation (`execute_query`'s exception
propagates before any mutation, leaving the state unchanged; `disconnect`
clears the connection bookkeeping but not the context). -/
def runOp (sourceResult : List Char → QueryResult) (st : ServiceState) :
    ServiceOp → ServiceState
  | ServiceOp.setCtx sql status cols rows aff err maxRows =>
    set_last_query_context st sql status cols rows aff err maxRows
  | ServiceOp.clearCtx => clear_last_query_context st
  | ServiceOp.consumeCtx => (consume_last_query_context st).2
  | ServiceOp.execQuery client sql =>
    match execute_query sourceResult client st sql with
    | Except.ok (_, st1, _) => st1
    | Except.error _ => st
  | ServiceOp.disconnect => { st with current_database := Option.none }

/-- Run a sequence of service operations. -/
def runOps (sourceResult : List Char → QueryResult) (st : ServiceState)
    (ops : List ServiceOp) : ServiceState :=
  ops.foldl (runOp sourceResult) st

/-- The snapshot installed by the most recent context-writing operation of
the sequence (`setCtx` installs a complete snapshot, `clearCtx` and
`consumeCtx` empty the slot, every other operation leaves it alone). -/
def contextOfOps (base : Option LastQueryContext) (ops : List ServiceOp) :
    Option LastQueryContext :=
  ops.foldl
    (fun acc op =>
      match op with
      | ServiceOp.setCtx sql status cols rows aff err maxRows =>
        some (mkLastQueryContext sql status cols rows aff err maxRows)
      | ServiceOp.clearCtx => Option.none
      | ServiceOp.consumeCtx => Option.none
      | _ => acc)
    base

/-- The SQL text of the most recent `execQuery` operation of a sequence. -/
def lastExecSql (ops : List ServiceOp) : Option (List Char) :=
  ops.foldl
    (fun acc op =>
      match op with
      | ServiceOp.execQuery _ sql => some sql
      | _ => acc)
    Option.none

end DatabaseService

-- ========== `urllib.parse` model (the fragment `duckdb_loader.py` uses) ==========

namespace PyUrl

/-- Characters CPython's `urlsplit` removes anywhere in the URL
(`_UNSAFE_URL_BYTES_TO_REMOVE`: tab, CR, LF). -/
def isUnsafe (c : Char) : Bool := c = '\t' || c = '\r' || c = '\n'

/-- Removal pass over the URL. -/
def removeUnsafe (l : List Char) : List Char := l.filter (fun c => !(isUnsafe c))

/-- Scheme characters allowed after the first character (letters, digits,
`+`, `-`, `.`). -/
def schemeChar (c : Char) : Bool :=
  c.isAlpha || c.isDigit || c = '+' || c = '-' || c = '.'

/-- Walk to the first `:`; succeed when every character before it is a
scheme character (the scheme is lower-cased), fail when a non-scheme
character or the end of the string comes first. -/
def splitSchemeGo (acc : List Char) : List Char → Option (List Char × List Char)
  | [] => Option.none
  | ':' :: rest => some (Py.lower acc.reverse, rest)
  | c :: rest => if schemeChar c then splitSchemeGo (c :: acc) rest else Option.none

/-- Scheme extraction of `urlsplit`: the text before the first `:` is the
scheme when the URL starts with an ASCII letter and the text consists of
scheme characters; otherwise there is no scheme and the URL is left
whole. -/
def splitScheme (url : List Char) : List Char × List Char :=
  match url with
  | [] => ([], [])
  | c :: rest =>
    if c.isAlpha then
      match splitSchemeGo [c] rest with
      | some pr => pr
      | Option.none => ([], url)
    else ([], url)

/-- Characters ending the authority component. -/
def netlocStop (c : Char) : Bool := c = '/' || c = '?' || c = '#'

/-- `_splitnetloc`: when the remainder starts with `//`, the authority is
everything up to the next `/`, `?` or `#`. -/
def splitNetloc : List Char → List Char × List Char
  | '/' :: '/' :: rest =>
    (rest.takeWhile (fun c => !(netlocStop c)),
     rest.dropWhile (fun c => !(netlocStop c)))
  | other => ([], other)

/-- Split at the first occurrence of a separator (Python
`str.split(sep, 1)` with the separator known to occur). -/
def splitFirst (sep : Char) : List Char → List Char × List Char
  | [] => ([], [])
  | c :: rest =>
    if c = sep then ([], rest)
    else
      let pr := splitFirst sep rest
      (c :: pr.1, pr.2)

/-- Result record of `urlsplit`/`urlparse` (the accessed fields). -/
structure SplitResult where
  scheme : List Char
  netloc : List Char
  path : List Char
  query : List Char
  fragment : List Char
deriving DecidableEq, Repr

/-- `urllib.parse.urlsplit` (ASCII model): strip the unsafe bytes, extract
the scheme, the `//`-prefixed authority (up to `/`, `?` or `#`), the
fragment after the first `#`, and the query after the first `?`.
Bracketed IPv6/IPvFuture hosts are outside the model and rejected. -/
def urlsplit (url0 : List Char) : Except (List Char) SplitResult :=
  let url := removeUnsafe url0
  let sr := splitScheme url
  let scheme := sr.1
  let nr := splitNetloc sr.2
  if Py.hasChar '[' nr.1 || Py.hasChar ']' nr.1 then
    Except.error (dat "bracketed host not modelled")
  else
    let fr : List Char × List Char :=
      if Py.hasChar '#' nr.2 then splitFirst '#' nr.2 else (nr.2, [])
    let qr : List Char × List Char :=
      if Py.hasChar '?' fr.1 then splitFirst '?' fr.1 else (fr.1, [])
    Except.ok ⟨scheme, nr.1, qr.1, qr.2, fr.2⟩

/-- Schemes for which `urlparse` splits `;parameters` off the path
(CPython's `uses_params`). -/
def usesParams : List (List Char) :=
  [dat "", dat "ftp", dat "hdl", dat "prospero", dat "http", dat "imap",
   dat "https", dat "shttp", dat "rtsp", dat "rtspu", dat "sip", dat "sips",
   dat "mms", dat "sftp", dat "tel"]

/-- Index of the first character satisfying the predicate at or after
`start`. -/
def findIdxFrom (p : Char → Bool) (start : Nat) (l : List Char) : Option Nat :=
  match (l.drop start).findIdx? p with
  | some i => some (start + i)
  | Option.none => Option.none

/-- `_splitparams` applied to the path: truncate at the first `;` of the
last path segment (of the whole path when it has no `/`). -/
def splitParamsPath (path : List Char) : List Char :=
  if Py.hasChar '/' path then
    let j := path.length - 1 - ((path.reverse.findIdx? (fun c => c = '/')).getD 0)
    match findIdxFrom (fun c => c = ';') j path with
    | some i => path.take i
    | Option.none => path
  else
    match path.findIdx? (fun c => c = ';') with
    | some i => path.take i
    | Option.none => path

/-- `urllib.parse.urlparse` (ASCII model): `urlsplit`, then parameter
splitting for the schemes that use it. -/
def urlparse (url : List Char) : Except (List Char) SplitResult :=
  match urlsplit url with
  | Except.error e => Except.error e
  | Except.ok r =>
    if r.scheme ∈ usesParams ∧ Py.hasChar ';' r.path then
      Except.ok { r with path := splitParamsPath r.path }
    else Except.ok r

/-- Hexadecimal digit value. -/
def hexVal (c : Char) : Option Nat :=
  if '0' ≤ c ∧ c ≤ '9' then some (c.toNat - 48)
  else if 'a' ≤ c ∧ c ≤ 'f' then some (c.toNat - 87)
  else if 'A' ≤ c ∧ c ≤ 'F' then some (c.toNat - 55)
  else Option.none

/-- Percent-decoding (`urllib.parse.unquote`), modelled byte-wise: `%`
followed by two hex digits decodes to that code point (Python decodes the
byte sequence as UTF-8 with replacement; the models agree on ASCII bytes,
the only ones occurring in this development), and an incomplete escape is
left as-is. -/
def unquote : List Char → List Char
  | [] => []
  | c :: rest =>
    if c = '%' then
      (match rest with
       | a :: b :: rest2 =>
         (match hexVal a, hexVal b with
          | some x, some y => Char.ofNat (16 * x + y) :: unquote rest2
          | _, _ => '%' :: unquote (a :: b :: rest2))
       | [a] => ['%', a]
       | [] => ['%'])
    else c :: unquote rest

end PyUrl

-- ========== DuckDB URL parser (`duckdb_loader.py`) ==========

/-- `DuckDBProtocol` (a `str`-valued enum). -/
inductive DuckDBProtocol
  | FILE
  | HTTP
  | HTTPS
  | DUCKDB
deriving DecidableEq, Repr

/-- The enum's string value. -/
def DuckDBProtocol.value : DuckDBProtocol → List Char
  | DuckDBProtocol.FILE => dat "file"
  | DuckDBProtocol.HTTP => dat "http"
  | DuckDBProtocol.HTTPS => dat "https"
  | DuckDBProtocol.DUCKDB => dat "duckdb"

/-- `ParsedDuckDBURL` (a dataclass; equality compares all four fields). -/
structure ParsedDuckDBURL where
  protocol : DuckDBProtocol
  path : List Char
  is_memory : Bool := false
  original_url : List Char := []
deriving DecidableEq, Repr

/-- `ParsedDuckDBURL.is_file_protocol`. -/
def ParsedDuckDBURL.is_file_protocol (p : ParsedDuckDBURL) : Bool :=
  p.protocol = DuckDBProtocol.FILE

/-- `ParsedDuckDBURL.is_http_protocol`. -/
def ParsedDuckDBURL.is_http_protocol (p : ParsedDuckDBURL) : Bool :=
  p.protocol = DuckDBProtocol.HTTP || p.protocol = DuckDBProtocol.HTTPS

/-- `ParsedDuckDBURL.is_duckdb_protocol`. -/
def ParsedDuckDBURL.is_duckdb_protocol (p : ParsedDuckDBURL) : Bool :=
  p.protocol = DuckDBProtocol.DUCKDB

/-- The `ParsedDuckDBURL.url` property: the serialized form
(`duckdb://:memory:` for the in-memory value, `scheme://` + path
otherwise — for http(s) the stored path already contains the full URL). -/
def ParsedDuckDBURL.url (p : ParsedDuckDBURL) : List Char :=
  if p.protocol = DuckDBProtocol.DUCKDB then
    (if p.is_memory then dat "duckdb://:memory:" else dat "duckdb://" ++ p.path)
  else if p.protocol = DuckDBProtocol.FILE then dat "file://" ++ p.path
  else p.protocol.value ++ dat "://" ++ p.path

namespace DuckDBURLParser

/-- `DuckDBURLParser.SUPPORTED_PROTOCOLS`. -/
def supportedProtocols : List (List Char × DuckDBProtocol) :=
  [(dat "file", DuckDBProtocol.FILE), (dat "http", DuckDBProtocol.HTTP),
   (dat "https", DuckDBProtocol.HTTPS), (dat "duckdb", DuckDBProtocol.DUCKDB)]

/-- Scheme lookup in the protocol table. -/
def lookupProtocol (scheme : List Char) : Option DuckDBProtocol :=
  (supportedProtocols.find? (fun e => e.1 = scheme)).map (fun e => e.2)

/-- `DuckDBURLParser.parse`: strip, reject the empty URL, `urlparse`, look
the scheme up, and build the `ParsedDuckDBURL` per scheme (file: path with
an authority folded back in and percent-decoded; http(s): the
reconstructed full URL as the path; duckdb: the `:memory:` sentinel
authority, else like file). -/
def parse (url0 : List Char) : Except (List Char) ParsedDuckDBURL :=
  let url := Py.strip url0
  if url = [] then Except.error (dat "URL cannot be empty")
  else
    match PyUrl.urlparse url with
    | Except.error e => Except.error e
    | Except.ok parsed =>
      let scheme := Py.lower parsed.scheme
      match lookupProtocol scheme with
      | Option.none =>
        Except.error (dat "Unsupported protocol: " ++ scheme ++ dat "://")
      | some DuckDBProtocol.FILE =>
        let path :=
          if parsed.netloc ≠ [] then '/' :: (parsed.netloc ++ parsed.path)
          else parsed.path
        Except.ok { protocol := DuckDBProtocol.FILE, path := PyUrl.unquote path,
                    is_memory := false, original_url := url }
      | some DuckDBProtocol.HTTP =>
        Except.ok { protocol := DuckDBProtocol.HTTP,
                    path := scheme ++ dat "://" ++ parsed.netloc ++ parsed.path
                      ++ (if parsed.query ≠ [] then '?' :: parsed.query else [])
                      ++ (if parsed.fragment ≠ [] then '#' :: parsed.fragment else []),
                    is_memory := false, original_url := url }
      | some DuckDBProtocol.HTTPS =>
        Except.ok { protocol := DuckDBProtocol.HTTPS,
                    path := scheme ++ dat "://" ++ parsed.netloc ++ parsed.path
                      ++ (if parsed.query ≠ [] then '?' :: parsed.query else [])
                      ++ (if parsed.fragment ≠ [] then '#' :: parsed.fragment else []),
                    is_memory := false, original_url := url }
      | some DuckDBProtocol.DUCKDB =>
        if parsed.netloc = dat ":memory:" then
          Except.ok { protocol := DuckDBProtocol.DUCKDB, path := dat ":memory:",
                      is_memory := true, original_url := url }
        else
          let path0 :=
            if parsed.netloc ≠ [] then '/' :: (parsed.netloc ++ parsed.path)
            else parsed.path
          let path := PyUrl.unquote path0
          Except.ok { protocol := DuckDBProtocol.DUCKDB, path := path,
                      is_memory := decide (path = dat ":memory:"),
                      original_url := url }

end DuckDBURLParser

-- ========== `create_duckdb_connection_context` (`service.py`) ==========

/-- Python exceptions arising in `create_duckdb_connection_context`. -/
inductive PyExc
  | fileLoadError (msg : List Char)
  | unsupportedFormatError (msg : List Char)
  | valueError (msg : List Char)
  | attributeError (msg : List Char)
  | otherError (msg : List Char)
deriving DecidableEq, Repr

/-- The `str(e)` text of the exception. -/
def PyExc.msg : PyExc → List Char
  | PyExc.fileLoadError m => m
  | PyExc.unsupportedFormatError m => m
  | PyExc.valueError m => m
  | PyExc.attributeError m => m
  | PyExc.otherError m => m

/-- Attributes defined on `DuckDBClient` (`duckdb_client.py`) together
with the capability methods of its base class.  The base class
`DatabaseClient` lives in the absent `database/client.py`; modelled from
the spec: section 2 lists the capability interface as `execute`,
`fetchAll`, `fetchOne`, `close`, `changeDatabase`, `getTransactionState`,
`begin/commit/rollbackTransaction`, `setAutocommit`, `getColumns`,
`getRowCount`, `ping`.  `load_files` is in neither list. -/
def duckdbClientAttrs : List (List Char) :=
  [dat "execute", dat "fetchall", dat "fetchone", dat "close",
   dat "change_database", dat "engine_name", dat "get_transaction_state",
   dat "begin_transaction", dat "commit_transaction",
   dat "rollback_transaction", dat "set_autocommit", dat "get_autocommit",
   dat "ping", dat "get_columns", dat "get_row_count", dat "load_file",
   dat "parsed_url", dat "conn", dat "cursor"]

/-- Outcome of the `DuckDBFileLoader.load_file` class-method body — the
part that touches the file system and the DuckDB engine and is therefore
supplied by the environment. -/
inductive LoaderOutcome
  | ok (table_name : List Char) (row_count : Int) (column_count : Int)
  | errFormat (msg : List Char)
  | errLoad (msg : List Char)
deriving DecidableEq, Repr

/-- Environment facts `create_duckdb_connection_context` depends on:
whether `duckdb.connect` raises, and what the loader does when invoked. -/
structure DuckDBWorld where
  connectError : Option (List Char)
  loaderOutcome : LoaderOutcome
deriving DecidableEq, Repr

/-- `DuckDBClient.load_file` for a client built on `parsedUrl`: raises
`FileLoadError` for a non-file/http protocol, otherwise delegates to
`DuckDBFileLoader.load_file`; a successful load returns the 3-tuple
`(table_name, row_count, column_count)` — three values, not four. -/
def duckdbClientLoadFile (parsedUrl : ParsedDuckDBURL) (world : DuckDBWorld) :
    Except PyExc (List PyVal) :=
  if !(parsedUrl.is_file_protocol || parsedUrl.is_http_protocol) then
    Except.error (PyExc.fileLoadError
      (dat "Cannot load file for protocol: " ++ parsedUrl.protocol.value))
  else
    match world.loaderOutcome with
    | LoaderOutcome.ok t r c => Except.ok [PyVal.str t, PyVal.int r, PyVal.int c]
    | LoaderOutcome.errFormat m => Except.error (PyExc.unsupportedFormatError m)
    | LoaderOutcome.errLoad m => Except.error (PyExc.fileLoadError m)

/-- Tuple unpacking into four targets (`a, b, c, _ = expr`): a
`ValueError` unless the tuple has exactly four elements. -/
def unpack4 (tup : List PyVal) : Except PyExc Unit :=
  match tup with
  | [_, _, _, _] => Except.ok ()
  | l =>
    Except.error (PyExc.valueError
      (if l.length < 4 then
        dat "not enough values to unpack (expected 4, got " ++
          Py.natStr l.length ++ dat ")"
       else dat "too many values to unpack (expected 4)"))

/-- The `for url_str in urls: DuckDBURLParser.parse(url_str)` loop; the
first `ValueError` propagates. -/
def parseAllUrls : List (List Char) → Except PyExc (List ParsedDuckDBURL)
  | [] => Except.ok []
  | u :: rest =>
    match DuckDBURLParser.parse u with
    | Except.error m => Except.error (PyExc.valueError m)
    | Except.ok p =>
      match parseAllUrls rest with
      | Except.error e => Except.error e
      | Except.ok ps => Except.ok (p :: ps)

/-- The `try` body of `create_duckdb_connection_context`, up to the point
where the connection context is declared connected: parse every URL, pick
`parsed_urls[0]` (an `IndexError` on an empty list), build the client
(`duckdb.connect` may raise), and load the file/http sources — a single
source via `client.load_file()` unpacked into four targets, several
sources via `client.load_files(...)`, an attribute `DuckDBClient` does not
have.  A `FileLoadError`/`UnsupportedFileFormatError` is caught by the
inner handler, the client closed and the exception re-raised. -/
def createDuckdbTryBody (urls : List (List Char)) (world : DuckDBWorld) :
    Except PyExc Unit :=
  match parseAllUrls urls with
  | Except.error e => Except.error e
  | Except.ok parsedUrls =>
    match parsedUrls with
    | [] => Except.error (PyExc.otherError (dat "list index out of range"))
    | primary :: _ =>
      match world.connectError with
      | some m => Except.error (PyExc.otherError m)
      | Option.none =>
        let fileUrls := parsedUrls.filter
          (fun p => p.is_file_protocol || p.is_http_protocol)
        if fileUrls ≠ [] then
          if fileUrls.length = 1 then
            match duckdbClientLoadFile primary world with
            | Except.error e => Except.error e
            | Except.ok tup => unpack4 tup
          else
            if duckdbClientAttrs.contains (dat "load_files") then Except.ok ()
            else
              Except.error (PyExc.attributeError
                (dat "'DuckDBClient' object has no attribute 'load_files'"))
        else Except.ok ()

/-- `create_duckdb_connection_context` (the status and error of the
returned `ConnectionContext`; display name and query history are
presentation-only): any exception escaping the `try` body is caught by the
outer handler, which returns a FAILED context carrying `str(e)`. -/
def create_duckdb_connection_context (urls : List (List Char))
    (world : DuckDBWorld) : ConnectionStatus × Option (List Char) :=
  match createDuckdbTryBody urls world with
  | Except.ok _ => (ConnectionStatus.CONNECTED, Option.none)
  | Except.error e => (ConnectionStatus.FAILED, some e.msg)

/-- Canonical-form condition of the amended round-trip claim: the stored
original equals the serialized form, and the value is either the duckdb
in-memory sentinel, or a file/duckdb value whose path starts with `/`,
contains none of `%`, `?`, `#`, tab, CR, LF, does not end in whitespace,
and is not flagged in-memory. -/
def ParsedDuckDBURL.canonical (p : ParsedDuckDBURL) : Prop :=
  p.original_url = p.url ∧
  ((p.protocol = DuckDBProtocol.DUCKDB ∧ p.is_memory = true ∧
      p.path = dat ":memory:") ∨
   ((p.protocol = DuckDBProtocol.FILE ∨ p.protocol = DuckDBProtocol.DUCKDB) ∧
    p.is_memory = false ∧
    (∃ rest, p.path = '/' :: rest) ∧
    (∀ c ∈ p.path,
      ¬(c = '%' ∨ c = '?' ∨ c = '#' ∨ c = '\t' ∨ c = '\r' ∨ c = '\n')) ∧
    (∀ c ∈ p.path.getLast?, ¬ Py.isWs c = true)))
-- ========== Lemmas: classifier loop vs first-match formulation ==========

/-- Generic bridge between `find?` and `dropWhile`/`head?`. -/
theorem find?_eq_head?_dropWhile {α : Type} (p : α → Bool) (l : List α) :
    l.find? p = (l.dropWhile (fun a => !(p a))).head? := by
  induction l with
  | nil => rfl
  | cons a t ih =>
    by_cases h : p a = true <;>
      simp [List.find?_cons, List.dropWhile, h, ih]

/-- The classifier's scanning loop returns the type of the first
boundary-matching entry of the table. -/
theorem classifyScan_eq_find (u : List Char) (tbl : List (List Char × QueryType)) :
    DatabaseService.classifyScan u tbl =
      (match tbl.find? (fun e => DatabaseService.kwBoundaryMatch u e.1) with
       | some e => e.2
       | Option.none => QueryType.OTHER) := by
  induction tbl with
  | nil => rfl
  | cons e rest ih =>
    obtain ⟨kw, t⟩ := e
    by_cases hp : Py.startsWith kw u = true
    · cases hdrop : u.drop kw.length with
      | nil =>
        simp [DatabaseService.classifyScan, List.find?_cons,
          DatabaseService.kwBoundaryMatch, hp, hdrop]
      | cons c cs =>
        by_cases ha : Py.isAlnum c = true <;>
          simp [DatabaseService.classifyScan, List.find?_cons,
            DatabaseService.kwBoundaryMatch, hp, hdrop, ha, ih]
    · simp [DatabaseService.classifyScan, List.find?_cons,
        DatabaseService.kwBoundaryMatch, hp, ih]

/-- C8: for every input, `_classify_query` strips and upper-cases the
statement and returns the type of the first entry of the ordered prefix
table whose keyword is a prefix followed by end-of-string or a
non-alphanumeric character; `SELECT 1` and a `WITH … SELECT …` CTE classify
as `SELECT`, `SELECTFOO` and empty/whitespace-only/unmatched inputs as
`OTHER`. -/
theorem classify_query_first_boundary_match :
    (∀ sql : List Char,
        DatabaseService.classify_query sql = DatabaseService.classifySpec sql) ∧
    DatabaseService.classify_query (dat "SELECT 1") = QueryType.SELECT ∧
    DatabaseService.classify_query (dat "WITH x AS (SELECT 1) SELECT a FROM x")
        = QueryType.SELECT ∧
    DatabaseService.classify_query (dat "SELECTFOO") = QueryType.OTHER ∧
    DatabaseService.classify_query (dat "") = QueryType.OTHER ∧
    DatabaseService.classify_query (dat "   ") = QueryType.OTHER ∧
    DatabaseService.classify_query (dat "FROBNICATE x") = QueryType.OTHER := by
  refine ⟨?_, by decide, by decide, by decide, by decide, by decide, by decide⟩
  intro sql
  unfold DatabaseService.classify_query DatabaseService.classifySpec
  by_cases h : (sql = [] || Py.strip sql = []) = true
  · simp [h]
  · simp only [h, if_false, Bool.false_eq_true]
    exact classifyScan_eq_find _ _

/-- C9: on SHOW-classified inputs, `is_sql_statement` accepts exactly when
the first non-modifier token after the keyword (modulo trailing semicolons)
is in the allow-list of SHOW targets, modifiers before it being skipped;
`show me slow queries` and bare `SHOW` are rejected, `SHOW TABLES` accepted. -/
theorem is_sql_statement_show_target :
    (∀ command : List Char,
        DatabaseService.classify_query command = QueryType.SHOW →
          (DatabaseService.is_sql_statement command = true ↔
            DatabaseService.showTargetOkSpec
              (Py.strip ((Py.upper (Py.strip command)).drop 4)) = true)) ∧
    DatabaseService.is_sql_statement (dat "show me slow queries") = false ∧
    DatabaseService.is_sql_statement (dat "SHOW TABLES") = true ∧
    DatabaseService.is_sql_statement (dat "SHOW") = false := by
  refine ⟨?_, by decide, by decide, by decide⟩
  intro command h
  have hne : command ≠ [] := by
    intro he
    rw [he] at h
    simp [DatabaseService.classify_query] at h
  have key : DatabaseService.is_sql_statement command =
      (if Py.strip ((Py.upper (Py.strip command)).drop 4) = [] then false
       else
        match (Py.splitWs (Py.strip ((Py.upper (Py.strip command)).drop 4))).find?
            (fun t => !(DatabaseService.optionalModifiers.contains t)) with
        | some t => DatabaseService.validShowTargets.contains (Py.rstripSemi t)
        | Option.none => false) := by
    unfold DatabaseService.is_sql_statement
    rw [if_neg hne, h]
  rw [key]
  unfold DatabaseService.showTargetOkSpec
  rcases hrest : Py.strip ((Py.upper (Py.strip command)).drop 4) with _ | ⟨c, cs⟩
  · simp [Py.splitWs, Py.splitWsAux]
  · rw [if_neg (by simp)]
    rw [find?_eq_head?_dropWhile]
    have hdw :
        (Py.splitWs (c :: cs)).dropWhile
            (fun t => !(!(DatabaseService.optionalModifiers.contains t))) =
          (Py.splitWs (c :: cs)).dropWhile
            (fun t => DatabaseService.optionalModifiers.contains t) := by
      congr 1
      funext t
      simp
    rw [hdw]
    rcases (Py.splitWs (c :: cs)).dropWhile
        (fun t => DatabaseService.optionalModifiers.contains t) with _ | ⟨t, ts⟩
    · simp
    · simp

-- ========== String lemma toolkit ==========

theorem dropWhile_idem (p : Char → Bool) (l : List Char) :
    (l.dropWhile p).dropWhile p = l.dropWhile p := by
  induction l with
  | nil => rfl
  | cons c t ih =>
    by_cases h : p c = true <;> simp [List.dropWhile_cons, h, ih]

theorem lstrip_idem (l : List Char) : Py.lstrip (Py.lstrip l) = Py.lstrip l :=
  dropWhile_idem _ _

theorem rstrip_idem (l : List Char) : Py.rstrip (Py.rstrip l) = Py.rstrip l := by
  unfold Py.rstrip
  rw [List.reverse_reverse, dropWhile_idem]

theorem rstrip_isPrefix (l : List Char) : Py.rstrip l <+: l := by
  have h : (Py.rstrip l).reverse <:+ l.reverse := by
    unfold Py.rstrip
    rw [List.reverse_reverse]
    exact List.dropWhile_suffix _
  exact List.reverse_suffix.mp h

theorem rstrip_eq_nil_iff (l : List Char) :
    Py.rstrip l = [] ↔ ∀ c ∈ l, Py.isWs c := by
  unfold Py.rstrip
  rw [List.reverse_eq_nil_iff, List.dropWhile_eq_nil_iff]
  constructor
  · intro h c hc
    exact h c (List.mem_reverse.mpr hc)
  · intro h c hc
    exact h c (List.mem_reverse.mp hc)

theorem strip_eq_nil_iff (l : List Char) :
    Py.strip l = [] ↔ ∀ c ∈ l, Py.isWs c := by
  unfold Py.strip
  rw [rstrip_eq_nil_iff]
  constructor
  · intro h c hc
    rcases List.mem_append.mp
        ((List.takeWhile_append_dropWhile (p := Py.isWs) (l := l)) ▸ hc) with h1 | h2
    · exact List.mem_takeWhile_imp h1
    · exact h c h2
  · intro h c hc
    exact h c ((List.dropWhile_sublist (l := l) Py.isWs).mem hc)

theorem strip_ne_nil_iff (l : List Char) :
    Py.strip l ≠ [] ↔ ∃ c ∈ l, ¬ Py.isWs c := by
  rw [Ne, strip_eq_nil_iff]
  push_neg
  constructor
  · intro ⟨c, hc, hw⟩
    exact ⟨c, hc, by simpa using hw⟩
  · intro ⟨c, hc, hw⟩
    exact ⟨c, hc, by simpa using hw⟩

theorem lstrip_eq_self_of_isPrefix (l m : List Char)
    (hl : Py.lstrip l = l) (hp : m <+: l) : Py.lstrip m = m := by
  cases m with
  | nil => rfl
  | cons c t =>
    obtain ⟨r, hr⟩ := hp
    have hlc : ¬ Py.isWs c = true := by
      intro hw
      unfold Py.lstrip at hl
      rw [← hr] at hl
      rw [List.cons_append, List.dropWhile_cons, if_pos hw] at hl
      have hlen := congrArg List.length hl
      have hle : (List.dropWhile Py.isWs (t ++ r)).length ≤ (t ++ r).length :=
        (List.dropWhile_sublist (l := t ++ r) Py.isWs).length_le
      rw [List.length_cons] at hlen
      omega
    unfold Py.lstrip
    rw [List.dropWhile_cons, if_neg hlc]

theorem strip_idem (l : List Char) : Py.strip (Py.strip l) = Py.strip l := by
  unfold Py.strip
  have h1 : Py.lstrip (Py.rstrip (Py.lstrip l)) = Py.rstrip (Py.lstrip l) :=
    lstrip_eq_self_of_isPrefix (Py.lstrip l) _ (lstrip_idem l) (rstrip_isPrefix _)
  rw [h1, rstrip_idem]

theorem rstrip_append_of_ne_nil (l1 l2 : List Char) (h : Py.rstrip l2 ≠ []) :
    Py.rstrip (l1 ++ l2) = l1 ++ Py.rstrip l2 := by
  have h2 : (l2.reverse.dropWhile Py.isWs).isEmpty = false := by
    rw [List.isEmpty_eq_false_iff_exists_mem]
    by_contra hc
    push_neg at hc
    apply h
    unfold Py.rstrip
    rw [List.eq_nil_iff_forall_not_mem.mpr hc]
    rfl
  unfold Py.rstrip
  rw [List.reverse_append, List.dropWhile_append, h2]
  simp [List.reverse_append]

theorem strip_suffix_rstrip (l : List Char) : Py.strip l <:+ Py.rstrip l := by
  by_cases h : Py.strip l = []
  · rw [h]
    exact List.nil_suffix
  · have hdec : Py.rstrip l = l.takeWhile Py.isWs ++ Py.strip l := by
      unfold Py.strip at *
      conv_lhs => rw [← List.takeWhile_append_dropWhile (p := Py.isWs) (l := l)]
      exact rstrip_append_of_ne_nil _ _ h
    rw [hdec]
    exact List.suffix_append _ _

theorem endsWith_rstrip_of_endsWith_strip (d l : List Char)
    (h : Py.endsWith d (Py.strip l) = true) :
    Py.endsWith d (Py.rstrip l) = true := by
  unfold Py.endsWith at *
  rw [List.isSuffixOf_iff_suffix] at *
  exact h.trans (strip_suffix_rstrip l)

theorem joinNl_append_single (ls : List (List Char)) (L : List Char) :
    Py.joinNl (ls ++ [L]) = if ls = [] then L else Py.joinNl ls ++ '\n' :: L := by
  induction ls with
  | nil => rfl
  | cons a t ih =>
    cases t with
    | nil => simp [Py.joinNl]
    | cons b u =>
      have hstep : Py.joinNl ((a :: b :: u) ++ [L]) =
          a ++ '\n' :: Py.joinNl ((b :: u) ++ [L]) := rfl
      rw [hstep, ih]
      simp [Py.joinNl]

theorem rstrip_ne_nil_of_strip_ne_nil (l : List Char) (h : Py.strip l ≠ []) :
    Py.rstrip l ≠ [] := by
  intro he
  apply h
  rw [strip_eq_nil_iff]
  exact (rstrip_eq_nil_iff l).mp he

theorem closing_rstrip_endsWith (sc : List (List Char)) (L d : List Char)
    (hL : Py.strip L ≠ []) (h : Py.endsWith d (Py.strip L) = true) :
    Py.endsWith d (Py.rstrip (Py.joinNl (sc ++ [L]))) = true := by
  rw [joinNl_append_single]
  by_cases hsc : sc = []
  · rw [if_pos hsc]
    exact endsWith_rstrip_of_endsWith_strip d L h
  · rw [if_neg hsc]
    have hassoc : Py.joinNl sc ++ '\n' :: L = (Py.joinNl sc ++ ['\n']) ++ L := by
      simp
    rw [hassoc, rstrip_append_of_ne_nil _ _ (rstrip_ne_nil_of_strip_ne_nil L hL)]
    have h2 := endsWith_rstrip_of_endsWith_strip d L h
    unfold Py.endsWith at *
    rw [List.isSuffixOf_iff_suffix] at *
    exact h2.trans (List.suffix_append _ _)

theorem strip_joinNl_append_ne_nil (sc : List (List Char)) (L : List Char)
    (h : Py.strip L ≠ [] ∨ (sc ≠ [] ∧ Py.strip (Py.joinNl sc) ≠ [])) :
    Py.strip (Py.joinNl (sc ++ [L])) ≠ [] := by
  rw [joinNl_append_single, strip_ne_nil_iff]
  rcases h with hL | ⟨hsc, hj⟩
  · obtain ⟨c, hc, hw⟩ := (strip_ne_nil_iff L).mp hL
    by_cases hn : sc = []
    · rw [if_pos hn]
      exact ⟨c, hc, hw⟩
    · rw [if_neg hn]
      exact ⟨c, by simp [hc], hw⟩
  · obtain ⟨c, hc, hw⟩ := (strip_ne_nil_iff _).mp hj
    rw [if_neg hsc]
    exact ⟨c, by simp [hc], hw⟩

-- ========== C6: script splitting ==========

/-- C6: a statement closes exactly when the processed (non-blank,
non-comment, non-directive) line ends, stripped, with the current
delimiter, and the delimiter suffix is stripped from the recorded
statement; a `DELIMITER` directive flushes the pending statement (dropping
it when it itself starts with `DELIMITER`) and installs the new delimiter;
trailing undelimited content is emitted; the two-INSERT script yields two
statements without the trailing `;`, and the `DELIMITER $$` script yields
two statements with the procedure body's internal `;` preserved. -/
theorem split_sql_statements_spec :
    DatabaseService.split_sql_statements
        (dat "INSERT INTO t VALUES (1);\nINSERT INTO t VALUES (2);\n") (dat ";") =
      [dat "INSERT INTO t VALUES (1)", dat "INSERT INTO t VALUES (2)"] ∧
    DatabaseService.split_sql_statements
        (dat "DELIMITER $$\nCREATE PROCEDURE p()\nBEGIN\nSELECT 1;\nEND $$\nDELIMITER ;\nSELECT 1;")
        (dat ";") =
      [dat "CREATE PROCEDURE p()\nBEGIN\nSELECT 1;\nEND", dat "SELECT 1"] ∧
    DatabaseService.split_sql_statements (dat "SELECT 1") (dat ";") = [dat "SELECT 1"] ∧
    (∀ (st : DatabaseService.SplitState) (line : List Char),
        Py.strip line ≠ [] →
        (Py.startsWith (dat "--") (Py.strip line)
          || Py.startsWith (dat "#") (Py.strip line)) = false →
        Py.startsWith (dat "DELIMITER") (Py.upper (Py.strip line)) = false →
        Py.endsWith st.delim (Py.strip line) = false →
        DatabaseService.splitStep st line = { st with current := st.current ++ [line] }) ∧
    (∀ (st : DatabaseService.SplitState) (line : List Char),
        Py.strip line ≠ [] →
        (Py.startsWith (dat "--") (Py.strip line)
          || Py.startsWith (dat "#") (Py.strip line)) = false →
        Py.startsWith (dat "DELIMITER") (Py.upper (Py.strip line)) = false →
        Py.endsWith st.delim (Py.strip line) = true →
        (DatabaseService.splitStep st line).current = [] ∧
        (DatabaseService.splitStep st line).delim = st.delim ∧
        Py.endsWith st.delim (Py.rstrip (Py.joinNl (st.current ++ [line]))) = true ∧
        (DatabaseService.splitStep st line).statements =
          (if Py.strip (DatabaseService.dropSuffixLen
              (Py.rstrip (Py.joinNl (st.current ++ [line]))) st.delim.length) = [] then
            st.statements
           else
            st.statements ++ [Py.strip (DatabaseService.dropSuffixLen
              (Py.rstrip (Py.joinNl (st.current ++ [line]))) st.delim.length)])) ∧
    (∀ (st : DatabaseService.SplitState) (line : List Char),
        Py.strip line ≠ [] →
        (Py.startsWith (dat "--") (Py.strip line)
          || Py.startsWith (dat "#") (Py.strip line)) = false →
        Py.startsWith (dat "DELIMITER") (Py.upper (Py.strip line)) = true →
        (DatabaseService.splitStep st line).current = [] ∧
        (DatabaseService.splitStep st line).delim =
          (match Py.splitWsMax1 (Py.strip line) with
           | [_, p1] => Py.strip p1
           | _ => st.delim) ∧
        (DatabaseService.splitStep st line).statements =
          (if st.current = [] then st.statements
           else if Py.strip (Py.joinNl st.current) ≠ [] ∧
               ¬ Py.startsWith (dat "DELIMITER")
                 (Py.upper (Py.strip (Py.joinNl st.current))) = true then
             st.statements ++ [Py.strip (Py.joinNl st.current)]
           else st.statements)) := by
  refine ⟨by decide, by decide, by decide, ?_, ?_, ?_⟩
  · intro st line h1 h2 h3 h4
    simp only [DatabaseService.splitStep, h1, h2, h3, h4]
    simp
  · intro st line h1 h2 h3 h4
    have hclose := closing_rstrip_endsWith st.current line st.delim h1 h4
    simp only [DatabaseService.splitStep, h1, h2, h3, h4]
    simp only [if_neg (by simp [h1] : ¬ Py.strip line = []), Bool.false_eq_true,
      if_false, if_true, hclose]
    by_cases hstmt : Py.strip (DatabaseService.dropSuffixLen
        (Py.rstrip (Py.joinNl (st.current ++ [line]))) st.delim.length) = []
    · simp [hstmt, hclose]
    · simp [hstmt, hclose]
  · intro st line h1 h2 h3
    simp only [DatabaseService.splitStep, h1, h2, h3]
    by_cases hcur : st.current = []
    · rcases hsp : Py.splitWsMax1 (Py.strip line) with _ | ⟨a, _ | ⟨b, _ | ⟨c, t⟩⟩⟩ <;>
        simp [hcur, hsp, h1]
    · rcases hsp : Py.splitWsMax1 (Py.strip line) with _ | ⟨a, _ | ⟨b, _ | ⟨c, t⟩⟩⟩ <;>
        (simp [hcur, hsp, h1]; split <;> simp [*])

-- ========== Script-loop characterization and splitter invariant ==========

theorem scriptLoop_characterization (execQ : Nat → List Char → DatabaseService.ExecOutcome) (n : Nat)
    (l : List (Nat × List Char)) : ∀ acc : DatabaseService.ScriptAcc,
    (DatabaseService.scriptLoop execQ true n l acc).errors =
      acc.errors ++ DatabaseService.expectedErrors execQ n l ∧
    (DatabaseService.scriptLoop execQ true n l acc).errorCount =
      acc.errorCount +
        (l.filter DatabaseService.stmtNonEmpty).countP (DatabaseService.stmtFailed execQ) ∧
    (DatabaseService.scriptLoop execQ true n l acc).calls =
      acc.calls ++ DatabaseService.expectedCalls execQ l := by
  induction l with
  | nil =>
    intro acc
    simp [DatabaseService.scriptLoop, DatabaseService.expectedErrors,
      DatabaseService.expectedCalls]
  | cons p rest ih =>
    intro acc
    obtain ⟨i, stmt0⟩ := p
    by_cases hs : Py.strip stmt0 = []
    · have hne : DatabaseService.stmtNonEmpty (i, stmt0) = false := by
        simp [DatabaseService.stmtNonEmpty, hs]
      simp [DatabaseService.scriptLoop, hs, DatabaseService.expectedErrors,
        DatabaseService.expectedCalls, List.filter_cons, hne, ih acc]
    · have hne : DatabaseService.stmtNonEmpty (i, stmt0) = true := by
        simp [DatabaseService.stmtNonEmpty, hs]
      have hout : DatabaseService.stmtOutcome execQ (i, stmt0) = execQ i (Py.strip stmt0) := rfl
      rcases ho : execQ i (Py.strip stmt0) with r | m
      · by_cases hsucc : r.success = true
        · have hfail : DatabaseService.stmtFailed execQ (i, stmt0) = false := by
            simp [DatabaseService.stmtFailed, hout, ho, DatabaseService.ExecOutcome.succeeded, hsucc]
          simp [DatabaseService.scriptLoop, hs, ho, hsucc,
            DatabaseService.expectedErrors, DatabaseService.expectedCalls,
            List.filter_cons, hne, hfail, hout, DatabaseService.ExecOutcome.isResult, ih _]
        · have hfail : DatabaseService.stmtFailed execQ (i, stmt0) = true := by
            simp [DatabaseService.stmtFailed, hout, ho, DatabaseService.ExecOutcome.succeeded, hsucc]
          simp [DatabaseService.scriptLoop, hs, ho, hsucc,
            DatabaseService.expectedErrors, DatabaseService.expectedCalls,
            List.filter_cons, hne, hfail, hout, DatabaseService.ExecOutcome.isResult,
            DatabaseService.ExecOutcome.failText, ih _]
          omega
      · have hfail : DatabaseService.stmtFailed execQ (i, stmt0) = true := by
          simp [DatabaseService.stmtFailed, hout, ho, DatabaseService.ExecOutcome.succeeded]
        simp [DatabaseService.scriptLoop, hs, ho,
          DatabaseService.expectedErrors, DatabaseService.expectedCalls,
          List.filter_cons, hne, hfail, hout, DatabaseService.ExecOutcome.isResult,
          DatabaseService.ExecOutcome.failText, ih _]
        omega

theorem splitStep_good (st : DatabaseService.SplitState) (line : List Char)
    (h1 : ∀ s ∈ st.statements, Py.strip s ≠ [])
    (h2 : st.current = [] ∨ Py.strip (Py.joinNl st.current) ≠ []) :
    (∀ s ∈ (DatabaseService.splitStep st line).statements, Py.strip s ≠ []) ∧
    ((DatabaseService.splitStep st line).current = [] ∨
      Py.strip (Py.joinNl (DatabaseService.splitStep st line).current) ≠ []) := by
  unfold DatabaseService.splitStep
  by_cases hb : Py.strip line = []
  · by_cases hc : st.current = []
    · rw [if_pos hb, if_pos hc]
      exact ⟨h1, h2⟩
    · rw [if_pos hb, if_neg hc]
      exact ⟨h1, Or.inr (strip_joinNl_append_ne_nil _ _ (Or.inr ⟨hc, h2.resolve_left hc⟩))⟩
  · rw [if_neg hb]
    by_cases hcm : (Py.startsWith (dat "--") (Py.strip line)
        || Py.startsWith (dat "#") (Py.strip line)) = true
    · rw [if_pos hcm]
      exact ⟨h1, h2⟩
    · rw [if_neg hcm]
      by_cases hd : Py.startsWith (dat "DELIMITER") (Py.upper (Py.strip line)) = true
      · rw [if_pos hd]
        rcases hsp : Py.splitWsMax1 (Py.strip line) with _ | ⟨a, _ | ⟨b, _ | ⟨c, t⟩⟩⟩ <;>
          simp only [hsp] <;>
          refine ⟨?_, ?_⟩ <;>
          first
          | (intro s hs
             revert hs
             split
             · exact fun hs => h1 s hs
             · split
               · intro hs
                 rcases List.mem_append.mp hs with hs1 | hs2
                 · exact h1 s hs1
                 · rename_i hg
                   rw [List.mem_singleton.mp hs2, strip_idem]
                   exact hg.1
               · exact fun hs => h1 s hs)
          | (split
             · rename_i hcc
               exact Or.inl hcc
             · split <;> exact Or.inl rfl)
      · rw [if_neg hd]
        by_cases hcl : Py.endsWith st.delim (Py.strip line) = true
        · rw [if_pos hcl]
          dsimp only
          refine ⟨?_, ?_⟩
          · intro s hs
            revert hs
            split
            · rename_i hrs
              split
              · intro hs
                rcases List.mem_append.mp hs with hs1 | hs2
                · exact h1 s hs1
                · rename_i hg
                  rw [List.mem_singleton.mp hs2, strip_idem]
                  exact hg
              · exact fun hs => h1 s hs
            · split
              · intro hs
                rcases List.mem_append.mp hs with hs1 | hs2
                · exact h1 s hs1
                · rw [List.mem_singleton.mp hs2]
                  exact strip_joinNl_append_ne_nil _ _ (Or.inl hb)
              · exact fun hs => h1 s hs
          · split <;> split <;> exact Or.inl rfl
        · rw [if_neg hcl]
          exact ⟨h1, Or.inr (strip_joinNl_append_ne_nil _ _ (Or.inl hb))⟩

theorem foldl_splitStep_good (lines : List (List Char)) :
    ∀ st : DatabaseService.SplitState,
    (∀ s ∈ st.statements, Py.strip s ≠ []) →
    (st.current = [] ∨ Py.strip (Py.joinNl st.current) ≠ []) →
    (∀ s ∈ (lines.foldl DatabaseService.splitStep st).statements, Py.strip s ≠ []) ∧
    ((lines.foldl DatabaseService.splitStep st).current = [] ∨
      Py.strip (Py.joinNl (lines.foldl DatabaseService.splitStep st).current) ≠ []) := by
  induction lines with
  | nil =>
    intro st hs1 hs2
    exact ⟨hs1, hs2⟩
  | cons L rest ih =>
    intro st hs1 hs2
    have h := splitStep_good st L hs1 hs2
    exact ih _ h.1 h.2

theorem split_sql_statements_strip_ne_nil (content delimiter : List Char) :
    ∀ s ∈ DatabaseService.split_sql_statements content delimiter, Py.strip s ≠ [] := by
  intro s hs
  unfold DatabaseService.split_sql_statements at hs
  have h := foldl_splitStep_good (Py.splitNl content) ⟨[], [], delimiter⟩
    (by simp) (by simp [Py.joinNl])
  revert hs
  dsimp only
  split
  · split
    · intro hs
      rcases List.mem_append.mp hs with hs1 | hs2
      · exact h.1 s hs1
      · rename_i hg
        rw [List.mem_singleton.mp hs2, strip_idem]
        exact hg
    · exact fun hs => h.1 s hs
  · exact fun hs => h.1 s hs

theorem mem_enumFrom_snd {α : Type} (l : List α) :
    ∀ (n : Nat) (p : Nat × α), p ∈ List.enumFrom n l → p.2 ∈ l := by
  induction l with
  | nil =>
    intro n p h
    simp [List.enumFrom] at h
  | cons a t ih =>
    intro n p h
    rw [List.enumFrom] at h
    rcases List.mem_cons.mp h with h1 | h2
    · rw [h1]
      exact List.mem_cons_self a t
    · exact List.mem_cons_of_mem _ (ih _ _ h2)

theorem map_snd_enumFrom {α β : Type} (f : α → β) (l : List α) :
    ∀ n, (List.enumFrom n l).map (fun p => f p.2) = l.map f := by
  induction l with
  | nil =>
    intro n
    rfl
  | cons a t ih =>
    intro n
    rw [List.enumFrom, List.map_cons, List.map_cons, ih]

theorem length_enumFrom {α : Type} (l : List α) :
    ∀ n, (List.enumFrom n l).length = l.length := by
  induction l with
  | nil =>
    intro n
    rfl
  | cons a t ih =>
    intro n
    rw [List.enumFrom, List.length_cons, List.length_cons, ih]

-- ========== C10: empty script ==========

/-- C10: a script whose content splits into zero statements is reported as
success with an empty row list and a "no statements found" message, and the
per-statement display callback is never invoked. -/
theorem execute_script_empty_script (execQ : Nat → List Char → DatabaseService.ExecOutcome)
    (useCallback : Bool) (content : List Char)
    (h : DatabaseService.split_sql_statements content (dat ";") = []) :
    DatabaseService.execute_script execQ useCallback content =
      ({ query_type := QueryType.SOURCE, success := true, rows := [],
         error := some (dat "No statements found in script") }, []) := by
  unfold DatabaseService.execute_script
  rw [h]
  rfl

/-- Evaluation of the empty-script property on a comment-only script. -/
theorem execute_script_empty_script_witness :
    DatabaseService.execute_script DatabaseService.raisingExec true (dat "-- a comment\n\n") =
      ({ query_type := QueryType.SOURCE, success := true, rows := [],
         error := some (dat "No statements found in script") }, []) :=
  execute_script_empty_script DatabaseService.raisingExec true _ (by decide)

-- ========== C5: script loop with partial failures ==========

/-- C5 fails as stated: for the single-statement script `SELECT 1;`
executed while `execute_query` raises (as happens whenever no client is
connected), the statement is recorded as that statement's failure, but the
display callback is invoked 0 times, not n = 1 times. -/
theorem execute_script_callback_skipped_on_exception :
    (DatabaseService.split_sql_statements (dat "SELECT 1;") (dat ";")).length = 1 ∧
    (DatabaseService.execute_script DatabaseService.raisingExec true (dat "SELECT 1;")).2 = [] ∧
    (DatabaseService.execute_script DatabaseService.raisingExec true (dat "SELECT 1;")).1.success
      = false ∧
    (DatabaseService.execute_script DatabaseService.raisingExec true (dat "SELECT 1;")).1.error =
      some (dat "Statement 1/1: No active database connection") := by
  decide

/-- C5 (amended): when every statement's execution returns normally (failed
results included), the loop runs all n statements, the display callback is
invoked exactly once per statement in order (with the stripped statement
text), the summary succeeds iff no statement failed, and the aggregated
error message is the failure lines joined, capped to the first 10 with a
trailing count of the remaining errors; a statement whose execution raises
is recorded as a failure without aborting the loop but without a callback
invocation. -/
theorem execute_script_partial_failure
    (execQ : Nat → List Char → DatabaseService.ExecOutcome) (content : List Char)
    (hNoRaise : ∀ i s, (execQ i s).isResult = true)
    (hne : DatabaseService.split_sql_statements content (dat ";") ≠ []) :
    (DatabaseService.execute_script execQ true content).2 =
      (DatabaseService.split_sql_statements content (dat ";")).map
        (fun s => (Py.strip s, DatabaseService.has_vertical_format_directive (Py.strip s))) ∧
    (DatabaseService.execute_script execQ true content).2.length =
      (DatabaseService.split_sql_statements content (dat ";")).length ∧
    ((DatabaseService.execute_script execQ true content).1.success = true ↔
      (List.enumFrom 1 (DatabaseService.split_sql_statements content (dat ";"))).countP
        (DatabaseService.stmtFailed execQ) = 0) ∧
    (DatabaseService.execute_script execQ true content).1.error =
      DatabaseService.scriptErrorMessage
        (DatabaseService.expectedErrors execQ
          (DatabaseService.split_sql_statements content (dat ";")).length
          (List.enumFrom 1 (DatabaseService.split_sql_statements content (dat ";")))) := by
  have hstmts := split_sql_statements_strip_ne_nil content (dat ";")
  have hkey : DatabaseService.execute_script execQ true content =
      (let acc := DatabaseService.scriptLoop execQ true
        (DatabaseService.split_sql_statements content (dat ";")).length
        (List.enumFrom 1 (DatabaseService.split_sql_statements content (dat ";")))
        ⟨0, 0, 0, [], []⟩
       ({ query_type := QueryType.SOURCE,
          success := acc.errorCount = 0,
          rows := [],
          affected_rows := if acc.totalAffected > 0 then some acc.totalAffected else Option.none,
          error := DatabaseService.scriptErrorMessage acc.errors }, acc.calls)) := by
    unfold DatabaseService.execute_script
    rw [if_neg hne]
  obtain ⟨herr, hcnt, hcalls⟩ := scriptLoop_characterization execQ
    (DatabaseService.split_sql_statements content (dat ";")).length
    (List.enumFrom 1 (DatabaseService.split_sql_statements content (dat ";")))
    ⟨0, 0, 0, [], []⟩
  have hfilterNe : (List.enumFrom 1
      (DatabaseService.split_sql_statements content (dat ";"))).filter
        DatabaseService.stmtNonEmpty =
      List.enumFrom 1 (DatabaseService.split_sql_statements content (dat ";")) := by
    apply List.filter_eq_self.mpr
    intro p hp
    have hp2 := hstmts p.2 (mem_enumFrom_snd _ _ _ hp)
    simp [DatabaseService.stmtNonEmpty, List.isEmpty_iff, hp2]
  rw [hkey]
  dsimp only
  refine ⟨?_, ?_, ?_, ?_⟩
  · rw [hcalls]
    unfold DatabaseService.expectedCalls
    rw [hfilterNe]
    have hfilterRes : (List.enumFrom 1
        (DatabaseService.split_sql_statements content (dat ";"))).filter
          (fun p => (DatabaseService.stmtOutcome execQ p).isResult) =
        List.enumFrom 1 (DatabaseService.split_sql_statements content (dat ";")) := by
      apply List.filter_eq_self.mpr
      intro p hp
      exact hNoRaise p.1 (Py.strip p.2)
    rw [hfilterRes]
    rw [List.nil_append]
    exact map_snd_enumFrom
      (fun s => (Py.strip s, DatabaseService.has_vertical_format_directive (Py.strip s))) _ 1
  · rw [hcalls]
    unfold DatabaseService.expectedCalls
    rw [hfilterNe]
    have hfilterRes : (List.enumFrom 1
        (DatabaseService.split_sql_statements content (dat ";"))).filter
          (fun p => (DatabaseService.stmtOutcome execQ p).isResult) =
        List.enumFrom 1 (DatabaseService.split_sql_statements content (dat ";")) := by
      apply List.filter_eq_self.mpr
      intro p hp
      exact hNoRaise p.1 (Py.strip p.2)
    rw [hfilterRes]
    simp [length_enumFrom]
  · rw [hcnt, hfilterNe]
    simp
  · rw [herr, List.nil_append]

/-- Evaluation of the script-loop property on a three-statement script
whose second statement fails. -/
theorem execute_script_partial_failure_witness :
    (DatabaseService.execute_script DatabaseService.mixedExec true
        (dat "INSERT INTO t VALUES (1);\nBAD;\nINSERT INTO t VALUES (3);")).2.length =
      (DatabaseService.split_sql_statements
        (dat "INSERT INTO t VALUES (1);\nBAD;\nINSERT INTO t VALUES (3);") (dat ";")).length :=
  (execute_script_partial_failure DatabaseService.mixedExec
    (dat "INSERT INTO t VALUES (1);\nBAD;\nINSERT INTO t VALUES (3);")
    (fun i s => by
      by_cases h : i = 2 <;>
        simp [DatabaseService.mixedExec, h, DatabaseService.ExecOutcome.isResult])
    (by decide)).2.1

-- ========== C7: vector capability probe ==========

/-- C7: the probe yields DISABLED when the query returns no rows, ENABLED
when the first row's second column upper-cases to `OFF`, DISABLED for any
other value (a `None` cell included), and UNKNOWN — never DISABLED — when
the probe itself raises. -/
theorem detect_vector_capability_cases :
    (DatabaseService.detect_vector_capability true (DatabaseService.ProbeOutcome.rows [])).1 =
      CapabilityStatus.DISABLED ∧
    (∀ (row : List (Option (List Char))) (rest : List (List (Option (List Char))))
        (v : List Char),
        row.get? 1 = some (some v) → Py.upper v = dat "OFF" →
        (DatabaseService.detect_vector_capability true
          (DatabaseService.ProbeOutcome.rows (row :: rest))).1 = CapabilityStatus.ENABLED) ∧
    (∀ (row : List (Option (List Char))) (rest : List (List (Option (List Char))))
        (v : List Char),
        row.get? 1 = some (some v) → Py.upper v ≠ dat "OFF" →
        (DatabaseService.detect_vector_capability true
          (DatabaseService.ProbeOutcome.rows (row :: rest))).1 = CapabilityStatus.DISABLED) ∧
    (∀ (row : List (Option (List Char))) (rest : List (List (Option (List Char)))),
        row.get? 1 = some Option.none →
        (DatabaseService.detect_vector_capability true
          (DatabaseService.ProbeOutcome.rows (row :: rest))).1 = CapabilityStatus.DISABLED) ∧
    (∀ m : List Char,
        (DatabaseService.detect_vector_capability true
          (DatabaseService.ProbeOutcome.raises m)).1 = CapabilityStatus.UNKNOWN ∧
        ¬ (DatabaseService.detect_vector_capability true
          (DatabaseService.ProbeOutcome.raises m)).1 = CapabilityStatus.DISABLED) := by
  refine ⟨by decide, ?_, ?_, ?_, ?_⟩
  · intro row rest v hget hoff
    have hvne : ¬ v = [] := by
      intro he
      rw [he] at hoff
      exact absurd hoff (by decide)
    rw [List.get?_eq_getElem?] at hget
    unfold DatabaseService.detect_vector_capability
    simp [hget, hvne, hoff]
  · intro row rest v hget hoff
    rw [List.get?_eq_getElem?] at hget
    by_cases hv0 : v = []
    · unfold DatabaseService.detect_vector_capability
      simp [hget, hv0]
      decide
    · unfold DatabaseService.detect_vector_capability
      simp [hget, hv0, hoff]
  · intro row rest hget
    rw [List.get?_eq_getElem?] at hget
    unfold DatabaseService.detect_vector_capability
    simp [hget]
    decide
  · intro m
    exact ⟨rfl, by simp [DatabaseService.detect_vector_capability]⟩

/-- Evaluation of the capability-probe property on the row
`("vidx_disabled", "off")`. -/
theorem detect_vector_capability_cases_witness :
    (DatabaseService.detect_vector_capability true
      (DatabaseService.ProbeOutcome.rows
        [[some (dat "vidx_disabled"), some (dat "off")]])).1 = CapabilityStatus.ENABLED :=
  detect_vector_capability_cases.2.1
    [some (dat "vidx_disabled"), some (dat "off")] [] (dat "off") (by decide) (by decide)

-- ========== C1: schema-change callbacks ==========

/-- C1 diverges from the code: `register_schema_change_callback` has an
empty body (only its docstring), so a registered callback is never stored;
after registering callback 7 and successfully executing the DDL statement
`CREATE TABLE t (x INT)` the registry is still empty, the statement
succeeds, and the callback fires zero times instead of exactly once. -/
theorem register_schema_change_callback_noop :
    (DatabaseService.register_schema_change_callback
      DatabaseService.initialServiceState 7).callbacks = [] ∧
    (DatabaseService.execute_query DatabaseService.noSourceResult
        (some DatabaseService.okClient)
        (DatabaseService.register_schema_change_callback
          DatabaseService.initialServiceState 7)
        (dat "CREATE TABLE t (x INT)")).map (fun out => out.2.2) = Except.ok [] ∧
    (DatabaseService.execute_query DatabaseService.noSourceResult
        (some DatabaseService.okClient)
        (DatabaseService.register_schema_change_callback
          DatabaseService.initialServiceState 7)
        (dat "CREATE TABLE t (x INT)")).map (fun out => out.1.success) =
      Except.ok true :=
  ⟨rfl, rfl, rfl⟩

-- ========== C4: last-query context ==========

theorem execute_query_preserves_context (srcR : List Char → QueryResult)
    (client : Option DatabaseService.ClientStep) (st : DatabaseService.ServiceState)
    (sql : List Char) (r : QueryResult) (st1 : DatabaseService.ServiceState)
    (ns : List Nat)
    (h : DatabaseService.execute_query srcR client st sql = Except.ok (r, st1, ns)) :
    st1.last_query_context = st.last_query_context := by
  unfold DatabaseService.execute_query at h
  dsimp only at h
  by_cases hq : DatabaseService.classify_query (DatabaseService.clean_display_directives sql)
      = QueryType.SOURCE
  · rw [if_pos hq] at h
    injection h with h'
    injection h' with ha hb
    injection hb with hb1 hb2
    rw [← hb1]
  · rw [if_neg hq] at h
    cases client with
    | none => exact absurd h (by simp)
    | some c =>
      dsimp only at h
      cases hc : c.execError with
      | some m =>
        rw [hc] at h
        dsimp only at h
        injection h with h'
        injection h' with ha hb
        injection hb with hb1 hb2
        rw [← hb1]
      | none =>
        rw [hc] at h
        dsimp only at h
        by_cases hu : DatabaseService.classify_query
            (DatabaseService.clean_display_directives sql) = QueryType.USE
        · rw [if_pos hu] at h
          cases hdb : DatabaseService.extract_database_from_use
              (DatabaseService.clean_display_directives sql) with
          | none =>
            rw [hdb] at h
            dsimp only at h
            injection h with h'
            injection h' with ha hb
            injection hb with hb1 hb2
            rw [← hb1]
          | some d =>
            rw [hdb] at h
            dsimp only at h
            injection h with h'
            injection h' with ha hb
            injection hb with hb1 hb2
            rw [← hb1]
        · rw [if_neg hu] at h
          dsimp only at h
          injection h with h'
          injection h' with ha hb
          injection hb with hb1 hb2
          rw [← hb1]

/-- C4 (amended): after any sequence of service operations the stored
context is either empty or exactly the complete snapshot installed by the
most recent `set_last_query_context` call (one atomic assignment, rows
capped at `max_rows`), and `execute_query` itself never modifies the
stored context — updating it is its caller's responsibility. -/
theorem last_query_context_reflects_latest_set (srcR : List Char → QueryResult) :
    (∀ (st : DatabaseService.ServiceState) (ops : List DatabaseService.ServiceOp),
        (DatabaseService.runOps srcR st ops).last_query_context =
          DatabaseService.contextOfOps st.last_query_context ops) ∧
    (∀ (st : DatabaseService.ServiceState) (client : Option DatabaseService.ClientStep)
        (sql : List Char),
        (DatabaseService.runOp srcR st
          (DatabaseService.ServiceOp.execQuery client sql)).last_query_context =
          st.last_query_context) := by
  have hexec : ∀ (st : DatabaseService.ServiceState)
      (client : Option DatabaseService.ClientStep) (sql : List Char),
      (DatabaseService.runOp srcR st
        (DatabaseService.ServiceOp.execQuery client sql)).last_query_context =
        st.last_query_context := by
    intro st client sql
    simp only [DatabaseService.runOp]
    rcases he : DatabaseService.execute_query srcR client st sql with e | ⟨r, st1, ns⟩
    · rfl
    · exact execute_query_preserves_context srcR client st sql r st1 ns he
  refine ⟨?_, hexec⟩
  intro st ops
  induction ops generalizing st with
  | nil => rfl
  | cons op rest ih =>
    have hrun : DatabaseService.runOps srcR st (op :: rest) =
        DatabaseService.runOps srcR (DatabaseService.runOp srcR st op) rest := rfl
    rw [hrun, ih]
    have hstep : (DatabaseService.runOp srcR st op).last_query_context =
        (match op with
         | DatabaseService.ServiceOp.setCtx sql status cols rows aff err maxRows =>
           some (DatabaseService.mkLastQueryContext sql status cols rows aff err maxRows)
         | DatabaseService.ServiceOp.clearCtx => Option.none
         | DatabaseService.ServiceOp.consumeCtx => Option.none
         | _ => st.last_query_context) := by
      cases op with
      | setCtx sql status cols rows aff err maxRows => rfl
      | clearCtx => rfl
      | consumeCtx => rfl
      | execQuery client sql => exact hexec st client sql
      | disconnect => rfl
    rw [hstep]
    cases op <;> rfl

/-- C4 fails as stated: `execute_query` does not update the stored context.
After installing a context for `SELECT 1` and then successfully executing
`SELECT 2`, the context still carries `SELECT 1` — neither empty nor a
reflection of the most recent completed `execute_query` call. -/
theorem last_query_context_stale_after_execute :
    DatabaseService.lastExecSql
      [DatabaseService.ServiceOp.setCtx (dat "SELECT 1") QueryStatus.SUCCESS
        Option.none Option.none Option.none Option.none 100,
       DatabaseService.ServiceOp.execQuery (some DatabaseService.okClient) (dat "SELECT 2")] =
      some (dat "SELECT 2") ∧
    ((DatabaseService.runOps DatabaseService.noSourceResult DatabaseService.initialServiceState
      [DatabaseService.ServiceOp.setCtx (dat "SELECT 1") QueryStatus.SUCCESS
        Option.none Option.none Option.none Option.none 100,
       DatabaseService.ServiceOp.execQuery (some DatabaseService.okClient)
         (dat "SELECT 2")]).last_query_context).map (fun c => c.sql) =
      some (dat "SELECT 1") ∧
    ¬ dat "SELECT 1" = dat "SELECT 2" :=
  ⟨rfl, rfl, by decide⟩

-- ========== C2: DuckDB connection context over file URLs ==========

theorem parseAllUrls_mem (urls : List (List Char)) (ps : List ParsedDuckDBURL)
    (h : parseAllUrls urls = Except.ok ps) :
    ∀ u ∈ urls, ∃ p ∈ ps, DuckDBURLParser.parse u = Except.ok p := by
  induction urls generalizing ps with
  | nil =>
    intro u hu
    simp at hu
  | cons v rest ih =>
    intro u hu
    unfold parseAllUrls at h
    rcases hv : DuckDBURLParser.parse v with e | p
    · rw [hv] at h
      exact absurd h (by simp)
    · rw [hv] at h
      rcases hr : parseAllUrls rest with e2 | ps2
      · rw [hr] at h
        exact absurd h (by simp)
      · rw [hr] at h
        injection h with h'
        subst h'
        rcases List.mem_cons.mp hu with h1 | h2
        · exact ⟨p, List.mem_cons_self _ _, h1 ▸ hv⟩
        · obtain ⟨q, hq1, hq2⟩ := ih ps2 hr u h2
          exact ⟨q, List.mem_cons_of_mem _ hq1, hq2⟩

/-- C2: whenever the input list contains a URL parsing to the file or
http(s) protocol, the created DuckDB connection context is FAILED and
carries an error message: a single file URL goes through
`client.load_file()`, whose 3-tuple return is unpacked into four targets
(a `ValueError`); several file URLs go through `client.load_files`, an
attribute `DuckDBClient` does not define (an `AttributeError`); either
exception — like a load failure itself — is caught by the surrounding
handler and reported as a failed connection. -/
theorem create_duckdb_connection_context_fails (urls : List (List Char))
    (world : DuckDBWorld)
    (h : ∃ u ∈ urls, ∃ p, DuckDBURLParser.parse u = Except.ok p ∧
      (p.is_file_protocol || p.is_http_protocol) = true) :
    (create_duckdb_connection_context urls world).1 = ConnectionStatus.FAILED ∧
    (create_duckdb_connection_context urls world).2.isSome = true := by
  obtain ⟨u, hu, p, hp, hfp⟩ := h
  unfold create_duckdb_connection_context
  rcases hb : createDuckdbTryBody urls world with e | unitv
  · simp
  · exfalso
    unfold createDuckdbTryBody at hb
    rcases hall : parseAllUrls urls with e2 | ps
    · rw [hall] at hb
      exact absurd hb (by simp)
    · rw [hall] at hb
      obtain ⟨q, hq1, hq2⟩ := parseAllUrls_mem urls ps hall u hu
      have hqp : q = p := by
        rw [hp] at hq2
        injection hq2 with h3
        exact h3.symm
      cases ps with
      | nil => simp at hq1
      | cons primary psRest =>
        cases hw : world.connectError with
        | some m =>
          rw [hw] at hb
          exact absurd hb (by simp)
        | none =>
          rw [hw] at hb
          dsimp only at hb
          have hfu : (primary :: psRest).filter
              (fun x => x.is_file_protocol || x.is_http_protocol) ≠ [] := by
            intro he
            have hqm : q ∈ (primary :: psRest).filter
                (fun x => x.is_file_protocol || x.is_http_protocol) :=
              List.mem_filter.mpr ⟨hq1, by rw [hqp]; exact hfp⟩
            rw [he] at hqm
            simp at hqm
          rw [if_pos hfu] at hb
          by_cases hlen : ((primary :: psRest).filter
              (fun x => x.is_file_protocol || x.is_http_protocol)).length = 1
          · rw [if_pos hlen] at hb
            rcases hload : duckdbClientLoadFile primary world with e3 | tup
            · rw [hload] at hb
              exact absurd hb (by simp)
            · rw [hload] at hb
              have htup : ∃ a b c, tup = [a, b, c] := by
                unfold duckdbClientLoadFile at hload
                split at hload
                · exact absurd hload (by simp)
                · rcases hlo : world.loaderOutcome with ⟨t, r, c⟩ | m | m <;>
                    rw [hlo] at hload
                  · injection hload with h4
                    exact ⟨_, _, _, h4.symm⟩
                  · exact absurd hload (by simp)
                  · exact absurd hload (by simp)
              obtain ⟨a, b, c, htup⟩ := htup
              rw [htup] at hb
              exact absurd hb (by simp [unpack4])
          · rw [if_neg hlen] at hb
            rw [if_neg (by decide)] at hb
            exact absurd hb (by simp)

/-- Evaluation of the failed-context property on a single local CSV URL
whose load would succeed. -/
theorem create_duckdb_connection_context_fails_witness :
    (create_duckdb_connection_context [dat "file:///data/a.csv"]
      ⟨Option.none, LoaderOutcome.ok (dat "a") 3 2⟩).1 = ConnectionStatus.FAILED :=
  (create_duckdb_connection_context_fails [dat "file:///data/a.csv"]
    ⟨Option.none, LoaderOutcome.ok (dat "a") 3 2⟩
    ⟨dat "file:///data/a.csv", by decide,
      ⟨{ protocol := DuckDBProtocol.FILE, path := dat "/data/a.csv",
         is_memory := false, original_url := dat "file:///data/a.csv" },
        by decide, by decide⟩⟩).1

-- ========== C3: URL round trip ==========
theorem strip_eq_self_of_ends (l : List Char)
    (h1 : ∀ c ∈ l.head?, ¬ Py.isWs c = true)
    (h2 : ∀ c ∈ l.getLast?, ¬ Py.isWs c = true) : Py.strip l = l := by
  have hl : Py.lstrip l = l := by
    cases l with
    | nil => rfl
    | cons c t =>
      unfold Py.lstrip
      rw [List.dropWhile_cons, if_neg (h1 c rfl)]
  have hr : Py.rstrip l = l := by
    unfold Py.rstrip
    have hdw : l.reverse.dropWhile Py.isWs = l.reverse := by
      cases hrev : l.reverse with
      | nil => rfl
      | cons c t =>
        rw [List.dropWhile_cons, if_neg]
        apply h2
        rw [← List.head?_reverse, hrev]
        rfl
    rw [hdw, List.reverse_reverse]
  unfold Py.strip
  rw [hl, hr]

theorem hasChar_eq_false (c : Char) (l : List Char) (h : ∀ x ∈ l, ¬ x = c) :
    Py.hasChar c l = false := by
  unfold Py.hasChar
  simp only [List.any_eq_false, decide_eq_true_eq]
  exact h

theorem unquote_eq_self (l : List Char) (h : ∀ x ∈ l, ¬ x = '%') :
    PyUrl.unquote l = l := by
  induction l with
  | nil => rfl
  | cons c t ih =>
    have hc : ¬ c = '%' := h c (List.mem_cons_self _ _)
    have htail : PyUrl.unquote t = t :=
      ih (fun x hx => h x (List.mem_cons_of_mem _ hx))
    rw [PyUrl.unquote.eq_def]
    dsimp only
    rw [if_neg hc, htail]

theorem removeUnsafe_append_slash (lit : List Char) (rest : List Char)
    (hlit : ∀ c ∈ lit, PyUrl.isUnsafe c = false)
    (hgood : ∀ c ∈ ('/' :: rest),
      ¬(c = '%' ∨ c = '?' ∨ c = '#' ∨ c = '\t' ∨ c = '\r' ∨ c = '\n')) :
    PyUrl.removeUnsafe (lit ++ '/' :: rest) = lit ++ '/' :: rest := by
  apply List.filter_eq_self.mpr
  intro c hc
  simp only [Bool.not_eq_true', Bool.not_eq_false]
  rcases List.mem_append.mp hc with h1 | h2
  · rw [hlit c h1]
  · have h3 := hgood c h2
    push_neg at h3
    simp only [PyUrl.isUnsafe, Bool.or_eq_false_iff, decide_eq_false_iff_not]
    exact ⟨⟨h3.2.2.2.1, h3.2.2.2.2.1⟩, h3.2.2.2.2.2⟩

theorem urlsplit_file_slash (rest : List Char)
    (hgood : ∀ c ∈ ('/' :: rest),
      ¬(c = '%' ∨ c = '?' ∨ c = '#' ∨ c = '\t' ∨ c = '\r' ∨ c = '\n')) :
    PyUrl.urlsplit (dat "file://" ++ '/' :: rest) =
      Except.ok ⟨dat "file", [], '/' :: rest, [], []⟩ := by
  have hhash : Py.hasChar '#' ('/' :: rest) = false := by
    apply hasChar_eq_false
    intro x hx
    have h3 := hgood x hx
    push_neg at h3
    exact h3.2.2.1
  have hquest : Py.hasChar '?' ('/' :: rest) = false := by
    apply hasChar_eq_false
    intro x hx
    have h3 := hgood x hx
    push_neg at h3
    exact h3.2.1
  unfold PyUrl.urlsplit
  rw [removeUnsafe_append_slash (dat "file://") rest (by decide) hgood]
  dsimp only
  rw [show PyUrl.splitScheme (dat "file://" ++ '/' :: rest) =
    (dat "file", '/' :: '/' :: '/' :: rest) from rfl]
  dsimp only
  rw [show PyUrl.splitNetloc ('/' :: '/' :: '/' :: rest) = ([], '/' :: rest) from rfl]
  dsimp only
  have hnh : ¬ '#' ∈ rest := fun hm =>
    (hgood '#' (List.mem_cons_of_mem _ hm)) (Or.inr (Or.inr (Or.inl rfl)))
  have hnq : ¬ '?' ∈ rest := fun hm =>
    (hgood '?' (List.mem_cons_of_mem _ hm)) (Or.inr (Or.inl rfl))
  simp [hhash, hquest, Py.hasChar, hnh, hnq]

theorem parse_file_slash (rest : List Char)
    (hgood : ∀ c ∈ ('/' :: rest),
      ¬(c = '%' ∨ c = '?' ∨ c = '#' ∨ c = '\t' ∨ c = '\r' ∨ c = '\n'))
    (hlast : ∀ c ∈ ('/' :: rest).getLast?, ¬ Py.isWs c = true) :
    DuckDBURLParser.parse (dat "file://" ++ '/' :: rest) =
      Except.ok { protocol := DuckDBProtocol.FILE, path := '/' :: rest,
                  is_memory := false,
                  original_url := dat "file://" ++ '/' :: rest } := by
  have hstrip : Py.strip (dat "file://" ++ '/' :: rest) = dat "file://" ++ '/' :: rest := by
    apply strip_eq_self_of_ends
    · intro c hc
      have hcf : 'f' = c := by
        have hh : (dat "file://" ++ '/' :: rest).head? = some 'f' := rfl
        rw [hh] at hc
        simpa using hc
      subst hcf
      decide
    · intro c hc
      rw [List.getLast?_append_of_ne_nil (dat "file://") (by simp)] at hc
      exact hlast c hc
  have hup : PyUrl.urlparse (dat "file://" ++ '/' :: rest) =
      Except.ok ⟨dat "file", [], '/' :: rest, [], []⟩ := by
    unfold PyUrl.urlparse
    rw [urlsplit_file_slash rest hgood]
    dsimp only
    rw [if_neg]
    intro hcond
    exact absurd hcond.1 (by decide)
  unfold DuckDBURLParser.parse
  rw [hstrip]
  rw [if_neg (by simp)]
  rw [hup]
  dsimp only
  rw [show DuckDBURLParser.lookupProtocol (Py.lower (dat "file")) =
    some DuckDBProtocol.FILE from rfl]
  dsimp only
  rw [if_neg (by simp)]
  rw [unquote_eq_self _ (fun x hx => by
    have h3 := hgood x hx
    push_neg at h3
    exact h3.1)]

theorem urlsplit_duckdb_slash (rest : List Char)
    (hgood : ∀ c ∈ ('/' :: rest),
      ¬(c = '%' ∨ c = '?' ∨ c = '#' ∨ c = '\t' ∨ c = '\r' ∨ c = '\n')) :
    PyUrl.urlsplit (dat "duckdb://" ++ '/' :: rest) =
      Except.ok ⟨dat "duckdb", [], '/' :: rest, [], []⟩ := by
  have hhash : Py.hasChar '#' ('/' :: rest) = false := by
    apply hasChar_eq_false
    intro x hx
    have h3 := hgood x hx
    push_neg at h3
    exact h3.2.2.1
  have hquest : Py.hasChar '?' ('/' :: rest) = false := by
    apply hasChar_eq_false
    intro x hx
    have h3 := hgood x hx
    push_neg at h3
    exact h3.2.1
  unfold PyUrl.urlsplit
  rw [removeUnsafe_append_slash (dat "duckdb://") rest (by decide) hgood]
  dsimp only
  rw [show PyUrl.splitScheme (dat "duckdb://" ++ '/' :: rest) =
    (dat "duckdb", '/' :: '/' :: '/' :: rest) from rfl]
  dsimp only
  rw [show PyUrl.splitNetloc ('/' :: '/' :: '/' :: rest) = ([], '/' :: rest) from rfl]
  dsimp only
  have hnh : ¬ '#' ∈ rest := fun hm =>
    (hgood '#' (List.mem_cons_of_mem _ hm)) (Or.inr (Or.inr (Or.inl rfl)))
  have hnq : ¬ '?' ∈ rest := fun hm =>
    (hgood '?' (List.mem_cons_of_mem _ hm)) (Or.inr (Or.inl rfl))
  simp [hhash, hquest, Py.hasChar, hnh, hnq]

theorem parse_duckdb_slash (rest : List Char)
    (hgood : ∀ c ∈ ('/' :: rest),
      ¬(c = '%' ∨ c = '?' ∨ c = '#' ∨ c = '\t' ∨ c = '\r' ∨ c = '\n'))
    (hlast : ∀ c ∈ ('/' :: rest).getLast?, ¬ Py.isWs c = true) :
    DuckDBURLParser.parse (dat "duckdb://" ++ '/' :: rest) =
      Except.ok { protocol := DuckDBProtocol.DUCKDB, path := '/' :: rest,
                  is_memory := false,
                  original_url := dat "duckdb://" ++ '/' :: rest } := by
  have hstrip : Py.strip (dat "duckdb://" ++ '/' :: rest) =
      dat "duckdb://" ++ '/' :: rest := by
    apply strip_eq_self_of_ends
    · intro c hc
      have hcf : 'd' = c := by
        have hh : (dat "duckdb://" ++ '/' :: rest).head? = some 'd' := rfl
        rw [hh] at hc
        simpa using hc
      subst hcf
      decide
    · intro c hc
      rw [List.getLast?_append_of_ne_nil (dat "duckdb://") (by simp)] at hc
      exact hlast c hc
  have hup : PyUrl.urlparse (dat "duckdb://" ++ '/' :: rest) =
      Except.ok ⟨dat "duckdb", [], '/' :: rest, [], []⟩ := by
    unfold PyUrl.urlparse
    rw [urlsplit_duckdb_slash rest hgood]
    dsimp only
    rw [if_neg]
    intro hcond
    exact absurd hcond.1 (by decide)
  unfold DuckDBURLParser.parse
  rw [hstrip]
  rw [if_neg (by simp)]
  rw [hup]
  dsimp only
  rw [show DuckDBURLParser.lookupProtocol (Py.lower (dat "duckdb")) =
    some DuckDBProtocol.DUCKDB from rfl]
  dsimp only
  rw [if_neg (by decide)]
  rw [if_neg (by simp)]
  rw [unquote_eq_self _ (fun x hx => by
    have h3 := hgood x hx
    push_neg at h3
    exact h3.1)]
  have hdec : decide ('/' :: rest = dat ":memory:") = false := by
    apply decide_eq_false
    intro hmem
    exact absurd (List.cons.inj hmem).1 (by decide)
  rw [hdec]

/-- C3 (amended): for canonical file/duckdb values the round trip
`parse(p.url) = p` holds exactly (all four fields, `original_url`
included), and every in-memory value serializes to the single canonical
string `duckdb://:memory:`.  Values of scheme http(s) are excluded: their
serializer prepends `scheme://` onto a path that already contains the full
URL; non-canonical values fail on the `original_url` field. -/
theorem parse_url_roundtrip_canonical (p : ParsedDuckDBURL)
    (h : p.canonical) :
    DuckDBURLParser.parse p.url = Except.ok p ∧
    (p.is_memory = true → p.url = dat "duckdb://:memory:") := by
  obtain ⟨horig, hcase⟩ := h
  obtain ⟨proto, path, mem, orig⟩ := p
  rcases hcase with ⟨hp1, hp2, hp3⟩ | ⟨hp1, hp2, ⟨rest, hp3⟩, hgood, hlast⟩
  · subst hp1
    subst hp2
    subst hp3
    have hurl : ParsedDuckDBURL.url
        ⟨DuckDBProtocol.DUCKDB, dat ":memory:", true, orig⟩ =
        dat "duckdb://:memory:" := rfl
    rw [hurl] at horig
    subst horig
    exact ⟨by decide, fun _ => rfl⟩
  · subst hp2
    subst hp3
    rcases hp1 with hF | hD
    · subst hF
      have hurl : ParsedDuckDBURL.url
          ⟨DuckDBProtocol.FILE, '/' :: rest, false, orig⟩ =
          dat "file://" ++ '/' :: rest := rfl
      rw [hurl] at horig
      subst horig
      refine ⟨?_, ?_⟩
      · rw [hurl]
        exact parse_file_slash rest hgood hlast
      · intro hmem
        exact absurd hmem Bool.false_ne_true
    · subst hD
      have hurl : ParsedDuckDBURL.url
          ⟨DuckDBProtocol.DUCKDB, '/' :: rest, false, orig⟩ =
          dat "duckdb://" ++ '/' :: rest := rfl
      rw [hurl] at horig
      subst horig
      refine ⟨?_, ?_⟩
      · rw [hurl]
        exact parse_duckdb_slash rest hgood hlast
      · intro hmem
        exact absurd hmem Bool.false_ne_true

/-- Evaluation of the round-trip law on a canonical file value and on the
in-memory value. -/
theorem parse_url_roundtrip_canonical_witness :
    DuckDBURLParser.parse
      (ParsedDuckDBURL.url
        { protocol := DuckDBProtocol.FILE, path := dat "/data/a.csv",
          is_memory := false, original_url := dat "file:///data/a.csv" }) =
      Except.ok
        { protocol := DuckDBProtocol.FILE, path := dat "/data/a.csv",
          is_memory := false, original_url := dat "file:///data/a.csv" } :=
  (parse_url_roundtrip_canonical
    { protocol := DuckDBProtocol.FILE, path := dat "/data/a.csv",
      is_memory := false, original_url := dat "file:///data/a.csv" }
    ⟨by decide, Or.inr ⟨Or.inl rfl, rfl, ⟨dat "data/a.csv", by decide⟩,
      by decide, by decide⟩⟩).1

/-- C3 fails as stated: the value parsed from `http://example.com/data.csv`
serializes to `http://http://example.com/data.csv` (the scheme is prepended
a second time), so re-parsing the serialized form does not restore the
value; and the value parsed from `file://rel/a.csv` re-parses with a
different `original_url`, so dataclass equality fails there too. -/
theorem parse_url_roundtrip_fails :
    (DuckDBURLParser.parse (dat "http://example.com/data.csv")).map
        ParsedDuckDBURL.url =
      Except.ok (dat "http://http://example.com/data.csv") ∧
    ¬ ((DuckDBURLParser.parse (dat "http://example.com/data.csv")).bind
        (fun p => DuckDBURLParser.parse p.url) =
       DuckDBURLParser.parse (dat "http://example.com/data.csv")) ∧
    ¬ ((DuckDBURLParser.parse (dat "file://rel/a.csv")).bind
        (fun p => DuckDBURLParser.parse p.url) =
       DuckDBURLParser.parse (dat "file://rel/a.csv")) := by
  refine ⟨by decide, by decide, by decide⟩

/-- Evaluation of the SHOW-target equivalence at `SHOW TABLES`. -/
theorem is_sql_statement_show_target_witness :
    DatabaseService.is_sql_statement (dat "SHOW TABLES") = true ↔
      DatabaseService.showTargetOkSpec
        (Py.strip ((Py.upper (Py.strip (dat "SHOW TABLES"))).drop 4)) = true :=
  is_sql_statement_show_target.1 (dat "SHOW TABLES") (by decide)

/-- Evaluation of the splitter-step law on a concrete statement-opening
line. -/
theorem split_sql_statements_spec_witness :
    DatabaseService.splitStep ⟨[], [], dat ";"⟩ (dat "SELECT 1") =
      { statements := [], current := [dat "SELECT 1"], delim := dat ";" } :=
  split_sql_statements_spec.2.2.2.1 ⟨[], [], dat ";"⟩ (dat "SELECT 1")
    (by decide) (by decide) (by decide) (by decide)
